import Mathlib

set_option maxHeartbeats 1000000
set_option maxRecDepth 4000

/-!
A shallow embedding of `csv2kml.py` (the bmr-cymru/csv2kml repository,
single source file) and proofs about its CSV-to-KML pipeline: column
resolution (`make_field_map`), row decoding and decimation, track
assembly, tag emission (`write_tag` / `close_tag`) and document
emission (`process_csv`).

Python values of type `str`-or-`None` are modelled as `Option String`;
Python truthiness (`None` and `""` are falsy) as `truthy`; Python
integers as `Int`; Python exceptions as an explicit `Except PyErr`
result.  Dictionaries keyed by strings are modelled as insertion-ordered
association lists, matching the (Python >= 3.7) iteration order that the
source relies on.
-/

namespace Csv2Kml

/-- Python exceptions that the embedded code can raise. -/
inductive PyErr where
  | valueError (msg : String)
  | typeError (msg : String)
  | attributeError
  | indexError
  | exception (msg : String)
  deriving DecidableEq, Repr

/-- Python truthiness of a `str`-or-`None` value: `None` and the empty
string are falsy, every other string is truthy. -/
def truthy : Option String → Bool
  | none => false
  | some s => !(s == "")

/-- Python `"%s" % v` rendering of a `str`-or-`None` value: `None`
prints as `"None"`. -/
def pyStr : Option String → String
  | none => "None"
  | some s => s

/-- Value of a nonempty all-digit character list, `none` otherwise. -/
def digitsValAux : List Char → Nat → Option Nat
  | [], acc => some acc
  | c :: rest, acc =>
    if c.isDigit then digitsValAux rest (acc * 10 + (c.toNat - 48)) else none

/-- Value of a character list that consists of at least one decimal
digit, `none` otherwise. -/
def digitsVal : List Char → Option Nat
  | [] => none
  | l => digitsValAux l 0

/-- Python `s.strip()`: remove whitespace from both ends. -/
def pyTrim (s : String) : String :=
  String.mk
    (((s.toList.dropWhile Char.isWhitespace).reverse.dropWhile
        Char.isWhitespace).reverse)

/-- Helper for `pySplitComma`. -/
def splitCommaAux : List Char → List Char → List String
  | [], cur => [String.mk cur.reverse]
  | c :: rest, cur =>
    if c = ',' then String.mk cur.reverse :: splitCommaAux rest []
    else splitCommaAux rest (c :: cur)

/-- Python `s.split(',')`. -/
def pySplitComma (s : String) : List String := splitCommaAux s.toList []

/-- Python `s.startswith(pre)`. -/
def pyStartsWith (s pre : String) : Bool := decide (pre.toList <+: s.toList)

/-- Python `int(s)` for base-10 string input: surrounding whitespace is
ignored, an optional single leading sign is allowed, and everything else
must be decimal digits.  (Underscore digit grouping is not modelled.)
Returns `none` where Python raises `ValueError`. -/
def pyInt (s : String) : Option Int :=
  match (pyTrim s).toList with
  | '-' :: rest => (digitsVal rest).map (fun n => -(n : Int))
  | '+' :: rest => (digitsVal rest).map (fun n => (n : Int))
  | l => (digitsVal l).map (fun n => (n : Int))

/-- Field constants for raw CSV columns (`F_TICK` ... `F_TRACK_NO` in
the source). -/
inductive Field where
  | F_TICK
  | F_FLIGHT_TIME
  | F_GPS_TS
  | F_GPS_LONG
  | F_GPS_LAT
  | F_GPS_ALT
  | F_FLY_STATE
  | F_YAW
  | F_TRAVEL_DIST
  | F_BASE_LONG
  | F_BASE_LAT
  | F_BASE_ALT
  | F_POLY_LONG_1
  | F_POLY_LONG_2
  | F_POLY_LAT_1
  | F_POLY_LAT_2
  | F_TRACK_NO
  deriving DecidableEq, Repr

open Field

/-- The `__fields` list, in source order. -/
def fieldsList : List Field :=
  [F_TICK, F_FLIGHT_TIME, F_GPS_TS,
   F_GPS_LAT, F_GPS_LONG, F_GPS_ALT,
   F_FLY_STATE, F_YAW, F_TRAVEL_DIST,
   F_BASE_LONG, F_BASE_LAT, F_BASE_ALT,
   F_POLY_LONG_1, F_POLY_LAT_1,
   F_POLY_LONG_2, F_POLY_LAT_2, F_TRACK_NO]

/-- `__dji_header_map`: csv2kml field names to DJI column headers. -/
def djiHeaderMap : Field → Option String
  | F_TICK => some "Tick#"
  | F_FLIGHT_TIME => some "flightTime"
  | F_GPS_TS => some "GPS:dateTimeStamp"
  | F_GPS_LONG => some "GPS:Long"
  | F_GPS_LAT => some "GPS:Lat"
  | F_GPS_ALT => some "GPS:heightMSL"
  | F_FLY_STATE => some "flyCState"
  | F_YAW => some "Yaw"
  | F_TRAVEL_DIST => some "distanceTravelled"
  | F_BASE_LONG => none
  | F_BASE_LAT => none
  | F_BASE_ALT => none
  | F_POLY_LONG_1 => none
  | F_POLY_LAT_1 => none
  | F_POLY_LONG_2 => none
  | F_POLY_LAT_2 => none
  | F_TRACK_NO => some "Track #"

/-- `__man_header_map`. -/
def manHeaderMap : Field → Option String
  | F_FLIGHT_TIME => some "Tick#"
  | F_GPS_TS => some "Time_Stamp"
  | F_TICK => some "Tick#"
  | F_GPS_LONG => some "Target_Lon"
  | F_GPS_LAT => some "Target_Lat"
  | F_GPS_ALT => some "Height"
  | F_FLY_STATE => some "Identify"
  | F_YAW => some "Bearing"
  | F_TRAVEL_DIST => some "Distance"
  | F_BASE_LONG => some "Base_Lon"
  | F_BASE_LAT => some "Base_Lat"
  | F_BASE_ALT => some "Base_Alt"
  | F_POLY_LONG_1 => some "Poly_Long_1"
  | F_POLY_LAT_1 => some "Poly_Lat_1"
  | F_POLY_LONG_2 => some "Poly_Long_2"
  | F_POLY_LAT_2 => some "Poly_Lat_2"
  | F_TRACK_NO => some "Track #"

/-- `__fs_aliases`: map known fly-state aliases to the canonical name. -/
def fsAliases (s : String) : Option String :=
  if s == "ASST_TAKEOFF" then some "AssistedTakeoff"
  else if s == "AssitedTakeoff" then some "AssistedTakeoff"
  else none

/-- Alias canonicalisation step from `write_state_placemarks`:
`if new_fly_state in __fs_aliases: new_fly_state = __fs_aliases[...]`. -/
def canonFlyState (s : String) : String :=
  match fsAliases s with
  | some c => c
  | none => s

/-- `__colors`: color aliases to hex ARGB values. -/
def colorsTable : List (String × String) :=
  [("red", "ff0000ff"),
   ("green", "ff00ff00"),
   ("trans_grn_1", "a6ffff20"),
   ("trans_grn_2", "59ffff20"),
   ("blue", "ffff0000"),
   ("yellow", "ff00ffff"),
   ("purple", "ffff00ff"),
   ("lightblue", "fff0aa14"),
   ("orange", "ff00aaff"),
   ("white", "ffffffff"),
   ("trans_red", "660000ff"),
   ("trans_green", "6600ff00"),
   ("trans_blue", "66ff0000"),
   ("trans_yellow", "6600ffff"),
   ("trans_purple", "66ff00ff"),
   ("trans_lightblue", "88f0aa14"),
   ("trans_orange", "6600aaff"),
   ("trans_white", "66ffffff")]

/-- Dictionary lookup in `__colors`. -/
def lookupColor (c : String) : Option String :=
  (colorsTable.find? (fun p => p.1 == c)).map Prod.snd

/-- `icon_marker_0_Red`. -/
def icon_marker_0_Red : String := "http://ocuair.com/vivid_marker/0_Red.png"

/-- `parse_color` as executed by Python 3 (the file's interpreter: its
shebang is `#!/usr/bin/env python3`).  A known color name is replaced by
its hex value; a string whose length is neither 6 nor 8 raises
`ValueError`; any string that passes the length check then reaches
`color_chars = map(str, range(0, 9)) + ['a', ...]`, which in Python 3
raises `TypeError` (a `map` object cannot be added to a list), so the
function never returns normally.  (Under the Python 2 reading the same
line would also omit the digit `'9'` from the valid character set.) -/
def parse_color (color : String) : Except PyErr String :=
  let color :=
    match lookupColor color with
    | some hex => hex
    | none => color
  if color.length ≠ 6 ∧ color.length ≠ 8 then
    .error (PyErr.valueError "invalid color string length")
  else
    .error (PyErr.typeError "unsupported operand types for +: map and list")

/-! ## Column Resolver (`make_field_map`, `find_model_header_map`) -/

/-- Python `s.rstrip(chars)` on a character list: remove every trailing
character that is a member of `cs` (a character set, not a suffix). -/
def rstripSetL (l : List Char) (cs : List Char) : List Char :=
  (l.reverse.dropWhile (fun c => cs.contains c)).reverse

/-- `canonicalise_header` (inner function of `make_field_map`), on the
header cell's character list: `name.split('[')[0]` (everything before
the first `'['`), then `rstrip('(1)')` if the name ends with the suffix
`"(1)"`, then `rstrip(':')`. -/
def canonicalise_header (name : String) : String :=
  let l1 := name.toList.takeWhile (fun c => c != '[')
  let l2 := if decide (['(', '1', ')'] <:+ l1) then rstripSetL l1 ['(', '1', ')']
            else l1
  String.mk (rstripSetL l2 [':'])

/-- Field-to-column-index map; `-1` is the source's sentinel for "field
not present in this data model". -/
abbrev FieldMap := Field → Int

/-- `make_field_map`: split the header row at commas, canonicalise each
cell, and map each field whose label occurs among the canonicalised
cells to the index of the first occurrence; any other field (including
fields whose label in the model table is `None`) maps to `-1`. -/
def make_field_map (header : String) (name_map : Field → Option String) : FieldMap :=
  let headers := (pySplitComma (pyTrim header)).map canonicalise_header
  fun name =>
    match name_map name with
    | none => -1
    | some lbl =>
      match headers.indexOf? lbl with
      | some idx => Int.ofNat idx
      | none => -1

/-- `find_model_header_map`: the DJI map if the header starts with the
DJI key-field label `"Tick#"`, the manual map if it starts with
`"Time_Stamp"`, otherwise `None`. -/
def find_model_header_map (headers : String) : Option (Field → Option String) :=
  if pyStartsWith headers "Tick#" then some djiHeaderMap
  else if pyStartsWith headers "Time_Stamp" then some manHeaderMap
  else none

/-! ## Indentation Writer (`_indent`) and Tag Emitter (`write_tag`,
`close_tag`) -/

/-- The `_indent` object: an enable flag and a (signed) nesting level. -/
structure Indent where
  enable : Bool
  level : Int
  deriving DecidableEq, Repr

/-- `indstr`: four spaces per level when enabled (Python's
`"    " * level` is empty for non-positive levels). -/
def Indent.indstr (i : Indent) : String :=
  if i.enable then String.join (List.replicate i.level.toNat "    ") else ""

/-- `indent()`: increase the level by one when enabled. -/
def Indent.incr (i : Indent) : Indent :=
  if i.enable then { i with level := i.level + 1 } else i

/-- `undent()`: decrease the level by one when enabled. -/
def Indent.decr (i : Indent) : Indent :=
  if i.enable then { i with level := i.level - 1 } else i

/-- Structural output events: an element opened and left open by
`write_tag`, an element opened and immediately closed on the same call
(value tags), and a closing tag written by `close_tag`.  The event list
is a history of the element structure of the emitted document; raw
text writes (`write_coords`, the XML declaration) do not affect it. -/
inductive Ev where
  | openEl (tag : String)
  | closeEl (tag : String)
  deriving DecidableEq, Repr

/-- Emission state: the chunks written to the output stream (in order),
the ghost element-event history, and the shared `_indent` object. -/
structure EmitState where
  out : List String
  events : List Ev
  ind : Indent
  deriving Repr

/-- `'<%s>' % tag`. -/
def xmlOpen (tag : String) : String := "<" ++ tag ++ ">"

/-- `'</%s>' % tag`. -/
def xmlClose (tag : String) : String := "</" ++ tag ++ ">"

/-- `tag.split()[0]`: the first whitespace-separated token of a tag
specification (no tag of this program starts with whitespace). -/
def firstWord (tag : String) : String :=
  String.mk (tag.toList.takeWhile (fun c => !c.isWhitespace))

/-- Python `value.splitlines()` for `'\n'`-separated text (the only
line terminator this program's values can contain). -/
def pySplitlinesAux : List Char → List Char → List String
  | [], cur => if cur.isEmpty then [] else [String.mk cur.reverse]
  | c :: rest, cur =>
    if c = '\n' then String.mk cur.reverse :: pySplitlinesAux rest []
    else pySplitlinesAux rest (c :: cur)

/-- Python `value.splitlines()`. -/
def pySplitlines (s : String) : List String := pySplitlinesAux s.toList []

/-- `"\n" in value`. -/
def containsNewline (s : String) : Bool := s.toList.contains '\n'

/-- `write_tag(kmlf, tag, indent, value=None)`.

With no value the element is written as `indstr<tag>\n`, left open, and
the indentation level is increased for its children (the source's
`oneline` is false, so the trailing `indent.indent()` runs).

With a value, `oneline` is true when the value has no embedded newline
OR `len(value) < 72 - len(tag_open + indstr)`; then the opening tag,
the value's lines (with their line breaks dropped) and the closing tag
are written on one line.  Otherwise the value lines are written one per
line at one extra level of indentation, between the opening and closing
tags; the `indent()`/`undent()` calls cancel and the level is unchanged
on exit. -/
def write_tag (st : EmitState) (tag : String) (value : Option String) : EmitState :=
  let has_value := value.isSome
  let indstr := st.ind.indstr
  let tag_open := xmlOpen tag ++ (if has_value then "" else "\n")
  let st1 : EmitState := { st with out := st.out ++ [indstr ++ tag_open] }
  let remaining : Int := 72 - Int.ofNat (tag_open ++ indstr).length
  match value with
  | none =>
    { st1 with ind := st1.ind.incr, events := st1.events ++ [Ev.openEl tag] }
  | some v =>
    let oneline := !containsNewline v || decide (Int.ofNat v.length < remaining)
    if oneline then
      { st1 with
          out := st1.out ++ pySplitlines v ++ [xmlClose tag ++ "\n"],
          events := st1.events ++ [Ev.openEl tag, Ev.closeEl tag] }
    else
      -- tag_indent is captured at the entry level, val_indent one level
      -- deeper; the undent() after the value lines and the indent()
      -- after the closing tag cancel, restoring the entry level.
      let tag_indent := indstr
      let val_indent := st1.ind.incr.indstr
      { st1 with
          out := st1.out ++ ["\n"]
                 ++ (pySplitlines v).map (fun l => val_indent ++ l ++ "\n")
                 ++ [tag_indent ++ xmlClose tag ++ "\n"],
          ind := st1.ind.decr.incr,
          events := st1.events ++ [Ev.openEl tag, Ev.closeEl tag] }

/-- `close_tag(kmlf, tag, indent)`: un-indent, then write the closing
tag using only the first word of the tag specification. -/
def close_tag (st : EmitState) (tag : String) : EmitState :=
  let st1 : EmitState := { st with ind := st.ind.decr }
  let t := firstWord tag
  { st1 with
      out := st1.out ++ [st1.ind.indstr ++ xmlClose t ++ "\n"],
      events := st1.events ++ [Ev.closeEl t] }

/-- Run the element-event history against a stack of open element
names: an open event pushes the first word of its tag; a close event
pops exactly when the name it wrote matches the top of the stack; any
mismatch (or a close on an empty stack) fails.  `runStack tr [] = some []`
states that every opened element is closed exactly once, in strict
LIFO order. -/
def runStack : List Ev → List String → Option (List String)
  | [], stk => some stk
  | Ev.openEl t :: rest, stk => runStack rest (firstWord t :: stk)
  | Ev.closeEl c :: rest, stk =>
    match stk with
    | [] => none
    | top :: stk1 => if top = c then runStack rest stk1 else none

/-! ## Row Decoder and Track Assembler (ingestion half of `process_csv`) -/

/-- A decoded row: the dictionary `{f: getfield(f) for f in __fields}`,
mapping every field constant to its raw value (or `None`). -/
abbrev Row := Field → Option String

/-- The value of `cur_track`: the integer sentinel (`-1` during
ingestion, `-2` as `last_track` during emission) before any assignment,
or a track-identifier value read from a row.  The sentinel compares
unequal to every row value, as an `int` compares unequal to every
`str`-or-`None` in Python. -/
inductive TrackKey where
  | sentinel
  | val (v : Option String)
  deriving DecidableEq, Repr

/-- Python dictionary assignment `d[k] = v` on an insertion-ordered
association list: replace in place if the key exists, else append. -/
def dictSet (d : List (Option String × List Row)) (k : Option String)
    (v : List Row) : List (Option String × List Row) :=
  match d with
  | [] => [(k, v)]
  | (k0, v0) :: rest =>
    if k0 = k then (k0, v) :: rest else (k0, v0) :: dictSet rest k v

/-- `d[k].append(r)`.  In `process_csv` the key is always present when
this runs (the preceding conditional inserts it); the `[]` case is
unreachable there and creates the entry. -/
def dictAppend (d : List (Option String × List Row)) (k : Option String)
    (r : Row) : List (Option String × List Row) :=
  match d with
  | [] => [(k, [r])]
  | (k0, v0) :: rest =>
    if k0 = k then (k0, v0 ++ [r]) :: rest else (k0, v0) :: dictAppend rest k r

/-- Dictionary membership test / lookup. -/
def dictLookup (d : List (Option String × List Row)) (k : Option String) :
    Option (List Row) :=
  match d with
  | [] => none
  | (k0, v0) :: rest => if k0 = k then some v0 else dictLookup rest k

/-- Whether Python `f[i]` (with a possibly negative index) is in
range. -/
def pyIndexOk (l : List String) (i : Int) : Bool :=
  let j := if i < 0 then Int.ofNat l.length + i else i
  decide (0 ≤ j ∧ j < Int.ofNat l.length)

/-- The value of Python `f[i]` when it is in range. -/
def pyIndexVal (l : List String) (i : Int) : String :=
  let j := if i < 0 then Int.ofNat l.length + i else i
  l.getD j.toNat ""

/-- `getfield(field)` (inner function of `process_csv`) as a total
function: `None` for a field whose map entry is `-1`, otherwise the
indexed column value.  Out-of-range indexing is unreachable wherever
this is used (`getfield` below guards it). -/
def getfieldTotal (fm : FieldMap) (f : List String) (field : Field) : Option String :=
  if fm field = -1 then none else some (pyIndexVal f (fm field))

/-- `getfield(field)`: `None` for an optional (absent) field, the
indexed column value otherwise; a column index outside the row raises
`IndexError`. -/
def getfield (fm : FieldMap) (f : List String) (field : Field) :
    Except PyErr (Option String) :=
  if fm field = -1 then Except.ok none
  else if pyIndexOk f (fm field) then Except.ok (some (pyIndexVal f (fm field)))
  else Except.error PyErr.indexError

/-- `data = {f: getfield(f) for f in __fields}`: the comprehension
evaluates `getfield` for every field eagerly, so it raises `IndexError`
if any present field's column is outside the row; otherwise the row
dictionary is `getfieldTotal fm f`. -/
def buildData (fm : FieldMap) (f : List String) : Except PyErr Row :=
  if fieldsList.all (fun fld => fm fld = -1 || pyIndexOk f (fm fld)) then
    Except.ok (getfieldTotal fm f)
  else
    Except.error PyErr.indexError

/-- Ingestion state of `process_csv` (the local variables of the
acquisition loop).  `accepted` is a ghost history variable recording, in
arrival order, every row appended to `csv_data`; the executable state
the source maintains is the other fields. -/
structure IngestState where
  field_map : Option FieldMap
  header_read : Bool
  pre_head_skip : Nat
  no_coord_skip : Nat
  ts_delta_skip : Nat
  ts_none_skip : Nat
  last_ts : Int
  cur_track : TrackKey
  csv_data : List (Option String × List Row)
  accepted : List Row

/-- The initial ingestion state (lines 724-743 of the source), with an
optional caller-supplied field map. -/
def initIngest (fmap : Option FieldMap) : IngestState :=
  { field_map := fmap
    header_read := false
    pre_head_skip := 0
    no_coord_skip := 0
    ts_delta_skip := 0
    ts_none_skip := 0
    last_ts := 0
    cur_track := TrackKey.sentinel
    csv_data := []
    accepted := [] }

/-- `"Tick" in line`. -/
def containsTick (line : String) : Bool :=
  decide ("Tick".toList <:+: line.toList)

/-- `line.lstrip(utf_bom)`: strip the three characters of the
`'\xef\xbb\xbf'` byte-order-marker string, as a character set, from the
start of the line. -/
def stripBom (line : String) : String :=
  String.mk (line.toList.dropWhile (fun c => c = '\xEF' ∨ c = '\xBB' ∨ c = '\xBF'))

/-- The track-accumulation step (lines 806-811): when `cur_track` is
still the `-1` sentinel or differs from the row's `F_TRACK_NO` value, a
fresh empty list is assigned to that key (resetting any existing entry)
and `cur_track` is updated; the row is then appended to the current
key's list. -/
def track_step (s : TrackKey × List (Option String × List Row)) (data : Row) :
    TrackKey × List (Option String × List Row) :=
  let k := data F_TRACK_NO
  let s :=
    if s.1 = TrackKey.sentinel ∨ s.1 ≠ TrackKey.val k then
      (TrackKey.val k, dictSet s.2 k [])
    else s
  (s.1, dictAppend s.2 k data)

/-- One iteration of the acquisition loop of `process_csv` (lines
746-811) on a single input line. -/
def process_line (thresh : Int) (st : IngestState) (line : String) :
    Except PyErr IngestState :=
  -- Ignore blank lines, comments etc. before the header row.
  if !st.header_read && !containsTick line then
    Except.ok { st with pre_head_skip := st.pre_head_skip + 1 }
  -- Skip header if using explicit field map.
  else if st.field_map.isSome && pyStartsWith line "Tick" then
    Except.ok { st with header_read := true }
  -- Detect model headers to parse field mapping.
  else if containsTick line then
    let line1 := stripBom line
    match find_model_header_map line1 with
    | none =>
      -- header_map is None: make_field_map calls None.keys()
      Except.error PyErr.attributeError
    | some hm =>
      Except.ok { st with field_map := some (make_field_map line1 hm),
                          header_read := true }
  else
    match st.field_map with
    | none => Except.error (PyErr.exception "Cannot process data without field map")
    | some fm =>
      let f := pySplitComma (pyTrim line)
      -- ts = int(getfield(F_TICK)) if getfield(F_TICK) else None:
      -- int() is applied (and can raise ValueError) exactly when the
      -- raw tick value is truthy; `not ts and not getfield(F_TICK)`
      -- holds exactly when it is falsy.
      match getfield fm f F_TICK with
      | Except.error e => Except.error e
      | Except.ok tickv =>
        if !truthy tickv then
          Except.ok { st with ts_none_skip := st.ts_none_skip + 1 }
        else
          match pyInt (tickv.getD "") with
          | none => Except.error (PyErr.valueError "invalid literal for int")
          | some ts =>
            -- Skip row if ts_delta < thresh.
            if ts - st.last_ts < thresh then
              Except.ok { st with ts_delta_skip := st.ts_delta_skip + 1 }
            else
              -- Update last_ts (before the coordinate check).
              let st := { st with last_ts := ts }
              match buildData fm f with
              | Except.error e => Except.error e
              | Except.ok data =>
                -- Skip row if coordinate data is null or zero, unless
                -- F_BASE_LONG has a truthy value (the key is always
                -- present in the comprehension-built dictionary).
                let coords := [data F_GPS_LONG, data F_GPS_LAT, data F_GPS_ALT]
                if (coords.all (fun c => !truthy c)
                      || coords.all (fun c => c == some "0.0"))
                    && !truthy (data F_BASE_LONG) then
                  Except.ok { st with no_coord_skip := st.no_coord_skip + 1 }
                else
                  let s := track_step (st.cur_track, st.csv_data) data
                  Except.ok { st with cur_track := s.1, csv_data := s.2,
                                      accepted := st.accepted ++ [data] }

/-- The whole acquisition loop over the input lines. -/
def ingest_lines (thresh : Int) (fmap : Option FieldMap) (lines : List String) :
    Except PyErr IngestState :=
  lines.foldlM (process_line thresh) (initIngest fmap)

/-- Acquisition followed by the empty-result check (lines 822-828):
`raise Exception("No non-skipped data rows found")` when `csv_data` is
empty after the full input has been consumed. -/
def process_csv_ingest (thresh : Int) (fmap : Option FieldMap)
    (lines : List String) : Except PyErr IngestState :=
  match ingest_lines thresh fmap lines with
  | Except.error e => Except.error e
  | Except.ok st =>
    if st.csv_data.length ≠ 0 then Except.ok st
    else Except.error (PyErr.exception "No non-skipped data rows found")

/-- The timestamp a row carries, as the decimation check parsed it. -/
def tsOf (r : Row) : Int := (pyInt ((r F_TICK).getD "")).getD 0

/-- The track-identifier value of a row. -/
def keyOf (r : Row) : Option String := r F_TRACK_NO

/-! ## Document Builder (emission half of `process_csv` and its
helpers).  The separate `kmlf.write` calls of a single coordinate line
are merged into one output chunk; chunk boundaries carry no meaning. -/

/-- `MODE_TRACK`. -/
def MODE_TRACK : String := "track"

/-- `MODE_PLACE`. -/
def MODE_PLACE : String := "placemark"

/-- `MODE_LINE`. -/
def MODE_LINE : String := "line"

/-- `MODE_CONE`. -/
def MODE_CONE : String := "cone"

/-- `desc_fmt % (tick, ts, long, lat, dist, state)`. -/
def desc_fmt (a b c d e f : Option String) : String :=
  "Tick#: " ++ pyStr a ++ "\nDate/Time: " ++ pyStr b ++ "\nPosition: "
    ++ pyStr c ++ " / " ++ pyStr d ++ "\nDistance: " ++ pyStr e
    ++ "\nDescription: " ++ pyStr f

/-- The `line_fmt` / `cone_fmt` description template of the line and
cone modes. -/
def line_cone_fmt (a b c d e f g h : Option String) : String :=
  "Tick#: " ++ pyStr a ++ "\nDate/Time: " ++ pyStr b ++ "\nPosition: "
    ++ pyStr c ++ " / " ++ pyStr d ++ "\nBase Location: " ++ pyStr e
    ++ " / " ++ pyStr f ++ "\nDistance: " ++ pyStr g
    ++ "\nDescription: " ++ pyStr h

/-- The `__kml` root tag specification (name plus namespace
attribute). -/
def kmlTag : String := "kml xmlns=\"http://earth.google.com/kml/2.0\""

/-- The `__style` tag template; `close_tag` is called with the raw
template, whose first word is `Style`. -/
def styleTagTemplate : String := "Style id=\"%s\""

/-- `write_kml_header`: XML declaration, open `kml`, open
`Document`. -/
def write_kml_header (st : EmitState) : EmitState :=
  let st := { st with
    out := st.out ++ ["<?xml version=\"1.0\" encoding=\"UTF-8\"?>" ++ "\n"] }
  let st := write_tag st kmlTag none
  write_tag st "Document" none

/-- `write_kml_footer`: close `Document`, close `kml`. -/
def write_kml_footer (st : EmitState) : EmitState :=
  let st := close_tag st "Document"
  close_tag st kmlTag

/-- `"%s,%s,%s" % (data[F_GPS_LONG], data[F_GPS_LAT], data[F_GPS_ALT])`. -/
def coordStr (data : Row) : String :=
  pyStr (data F_GPS_LONG) ++ "," ++ pyStr (data F_GPS_LAT) ++ ","
    ++ pyStr (data F_GPS_ALT)

/-- `write_coords`: one indented line of space-separated coordinate
triples (callers that pass a single dictionary are modelled by a
one-element list, as the `hasattr(data, "index")` wrapping does). -/
def write_coords (st : EmitState) (ds : List Row) : EmitState :=
  { st with out := st.out ++
      [st.ind.indstr ++ String.intercalate " " (ds.map coordStr) ++ "\n"] }

/-- `write_line_style` (color and width are already strings here; the
caller stringifies). -/
def write_line_style (st : EmitState) (color : String) (width : String) :
    EmitState :=
  let st := write_tag st "LineStyle" none
  let st := write_tag st "color" (some color)
  let st := write_tag st "width" (some width)
  close_tag st "LineStyle"

/-- `write_poly_style`. -/
def write_poly_style (st : EmitState) (color : String) : EmitState :=
  let st := write_tag st "PolyStyle" none
  let st := write_tag st "color" (some color)
  close_tag st "PolyStyle"

/-- `write_icon_style`: scale and heading are written only when not
`None`; the `href` value is passed through to `write_tag` unchecked (a
`None` href would leave the element open). -/
def write_icon_style (st : EmitState) (href : Option String)
    (scale heading : Option String) : EmitState :=
  let st := write_tag st "IconStyle" none
  let st := match scale with
    | none => st
    | some sc => write_tag st "scale" (some sc)
  let st := match heading with
    | none => st
    | some hd => write_tag st "heading" (some hd)
  let st := write_tag st "Icon" none
  let st := write_tag st "href" href
  let st := close_tag st "Icon"
  close_tag st "IconStyle"

/-- `write_style`: a `Style` element with an `id` attribute when a
truthy name is given (bare `Style` otherwise), optional line, polygon
and icon sub-styles.  `line_width or "4"` is modelled by an optional
string that is `none` exactly when the Python value is falsy. -/
def write_style (st : EmitState) (style : Option String)
    (line_color poly_color line_width : Option String)
    (icon_style : Option (Option String × Option String × Option String)) :
    EmitState :=
  let tag := if truthy style then "Style id=\"" ++ style.getD "" ++ "\""
             else "Style"
  let st := write_tag st tag none
  let st := if truthy line_color then
      write_line_style st (line_color.getD "")
        (if truthy line_width then line_width.getD "" else "4")
    else st
  let st := if truthy poly_color then write_poly_style st (poly_color.getD "")
            else st
  let st := match icon_style with
    | none => st
    | some (href, scale, heading) => write_icon_style st href scale heading
  close_tag st styleTagTemplate

/-- `write_style_headers`: the five named styles of every document.
`width` is the integer `track_width`; `line_width or "4"` sees it as
falsy exactly when it is `0`. -/
def write_style_headers (st : EmitState) (width : Int) (color : String) :
    EmitState :=
  let href_start := "http://www.earthpoint.us/Dots/GoogleEarth/pal2/icon13.png"
  let href_end := "http://www.earthpoint.us/Dots/GoogleEarth/shapes/target.png"
  let href_mark := "http://maps.google.com/mapfiles/kml/paddle/D.png"
  let widthStr : Option String := if width = 0 then none else some (toString width)
  let st := write_style st (some "lineStyle1") (some color) none widthStr none
  let st := write_style st (some "iconPathStart") none none none
              (some (some href_start, none, none))
  let st := write_style st (some "iconPathEnd") none none none
              (some (some href_end, none, none))
  let st := write_style st (some "iconPathMark") none none none
              (some (some href_mark, none, none))
  write_style st (some "polyStyle1") (some "a6ffff20") (some "59ffff20")
    (some "2") none

/-- `write_placemark`: raises `ValueError` when both a style URL and an
icon marker are truthy, before anything is written.  Otherwise writes a
`Placemark` with name (defaulted from the truncated fly state, then
from `"Tick: " + data[F_TICK]` — a `TypeError` when that tick value is
`None`), description, either a `styleUrl` or an inline icon style, and
the geometry selected by `shape` (`None` point, `"line"`, `"cone"`; any
other value emits no geometry). -/
def write_placemark (st : EmitState) (data : Row) (style : Option String)
    (altitude : String) (icon_marker : Option String)
    (heading : Option String) (name : Option String) (desc : Option String)
    (shape : Option String) : Except PyErr EmitState :=
  if truthy style && truthy icon_marker then
    Except.error (PyErr.valueError "style and icon_marker cannot both beset")
  else
    let coords := coordStr data
    let identity := data F_FLY_STATE
    let name1 := if truthy name then name
      else if truthy identity then
        some (String.mk ((identity.getD "").toList.take 11))
      else none
    match (if truthy name1 then Except.ok (name1.getD "")
           else
             match data F_TICK with
             | none => Except.error (PyErr.typeError "can only concatenate str")
             | some t => Except.ok ("Tick: " ++ t)) with
    | Except.error e => Except.error e
    | Except.ok nm =>
      let st := write_tag st "Placemark" none
      let st := write_tag st "name" (some nm)
      let st := write_tag st "description" desc
      let st := if truthy style then write_tag st "styleUrl" style
        else write_style st none none none none (some (icon_marker, none, heading))
      let st :=
        if !truthy shape then
          let st := write_tag st "Point" none
          let st := write_tag st "coordinates" (some coords)
          let st := write_tag st "altitudeMode" (some altitude)
          let st := write_tag st "extrude" (some "1")
          close_tag st "Point"
        else if shape == some "line" then
          let st := write_tag st "LineString" none
          let st := write_tag st "extrude" (some "0")
          let st := write_tag st "tessellate" (some "0")
          let st := write_tag st "altitudeMode" (some altitude)
          let st := write_tag st "coordinates" none
          let end_data : Row := fun fld =>
            match fld with
            | F_GPS_LONG => data F_BASE_LONG
            | F_GPS_LAT => data F_BASE_LAT
            | F_GPS_ALT => data F_BASE_ALT
            | _ => none
          let st := write_coords st [data]
          let st := write_coords st [end_data]
          let st := close_tag st "coordinates"
          close_tag st "LineString"
        else if shape == some "cone" then
          let st := write_tag st "Polygon" none
          let st := write_tag st "tessellate" (some "1")
          let st := write_tag st "outerBoundaryIs" none
          let st := write_tag st "LinearRing" none
          let st := write_tag st "coordinates" none
          let base : Row := fun fld =>
            match fld with
            | F_GPS_LONG => data F_BASE_LONG
            | F_GPS_LAT => data F_BASE_LAT
            | F_GPS_ALT => some "0"
            | _ => none
          let p1 : Row := fun fld =>
            match fld with
            | F_GPS_LONG => data F_POLY_LONG_1
            | F_GPS_LAT => data F_POLY_LAT_1
            | F_GPS_ALT => some "0"
            | _ => none
          let p2 : Row := fun fld =>
            match fld with
            | F_GPS_LONG => data F_POLY_LONG_2
            | F_GPS_LAT => data F_POLY_LAT_2
            | F_GPS_ALT => some "0"
            | _ => none
          let st := write_coords st [base, p1, p2, base]
          let st := close_tag st "coordinates"
          let st := close_tag st "LinearRing"
          let st := close_tag st "outerBoundaryIs"
          close_tag st "Polygon"
        else st
      Except.ok (close_tag st "Placemark")

/-- One row of `write_state_placemarks`: canonicalise the fly state via
the alias table, and when a previous truthy state differs from it,
write a marker placemark named `old:new`. -/
def state_marks_row (altitude : String) (acc : EmitState × Option String)
    (data : Row) : Except PyErr (EmitState × Option String) :=
  let new_fly_state : Option String :=
    match data F_FLY_STATE with
    | none => none
    | some s => some (canonFlyState s)
  if truthy acc.2 && decide (new_fly_state ≠ acc.2) then
    let nm := pyStr acc.2 ++ ":" ++ pyStr new_fly_state
    let desc := desc_fmt (data F_TICK) (data F_GPS_TS) (data F_GPS_LONG)
                  (data F_GPS_LAT) (data F_TRAVEL_DIST) (data F_FLY_STATE)
    match write_placemark acc.1 data none altitude (some icon_marker_0_Red)
            (data F_YAW) (some nm) (some desc) none with
    | Except.error e => Except.error e
    | Except.ok st2 => Except.ok (st2, new_fly_state)
  else
    Except.ok (acc.1, new_fly_state)

/-- `write_state_placemarks`: a folder of fly-state-change markers,
iterating tracks and rows in `csv_data` order with a running fly
state. -/
def write_state_placemarks (st : EmitState)
    (csv_data : List (Option String × List Row)) (altitude : String) :
    Except PyErr EmitState :=
  let st := write_tag st "Folder" none
  let st := write_tag st "name" (some "Place Marker")
  match csv_data.foldlM (fun acc p => p.2.foldlM (state_marks_row altitude) acc)
          (st, (none : Option String)) with
  | Except.error e => Except.error e
  | Except.ok acc => Except.ok (close_tag acc.1 "Folder")

/-- `write_track_header`: a folder with start/end placemarks (an
`IndexError` on an empty row list, from `csv_data[0]`), then a folder,
placemark and line-string header left open for the coordinate data. -/
def write_track_header (st : EmitState) (rows : List Row)
    (track : Option String) (altitude : String) (name : Option String) :
    Except PyErr EmitState :=
  match rows.head?, rows.getLast? with
  | some first, some lastR =>
    let st := write_tag st "Folder" none
    let st := write_tag st "name"
      (some (if truthy name then name.getD "" else "Start/End Marker"))
    let start_desc := desc_fmt (first F_TICK) (first F_GPS_TS)
      (first F_GPS_LONG) (first F_GPS_LAT) (first F_TRAVEL_DIST)
      (first F_FLY_STATE)
    let end_desc := desc_fmt (lastR F_TICK) (lastR F_GPS_TS)
      (lastR F_GPS_LONG) (lastR F_GPS_LAT) (lastR F_TRAVEL_DIST)
      (lastR F_FLY_STATE)
    match write_placemark st first (some " #iconPathStart") altitude none none
            (some "Start") (some start_desc) none with
    | Except.error e => Except.error e
    | Except.ok st =>
      match write_placemark st lastR (some " #iconPathEnd") altitude none none
              (some "End") (some end_desc) none with
      | Except.error e => Except.error e
      | Except.ok st =>
        let st := close_tag st "Folder"
        let track_desc := if truthy track then
            "Flight Path (track " ++ pyStr track ++ ")"
          else "Flight Path"
        let st := write_tag st "Folder" none
        let st := write_tag st "name"
          (some (if truthy name then name.getD "" else track_desc))
        let st := write_tag st "Placemark" none
        let st := write_tag st "name"
          (some (if truthy name then name.getD "" else "Flight Trace"))
        let st := write_tag st "description" (some track_desc)
        let st := write_tag st "styleUrl" (some "#lineStyle1")
        let st := write_tag st "LineString" none
        let st := write_tag st "extrude" (some "0")
        let st := write_tag st "tessellate" (some "0")
        let st := write_tag st "altitudeMode" (some altitude)
        Except.ok (write_tag st "coordinates" none)
  | _, _ => Except.error PyErr.indexError

/-- `write_track_footer`: close `coordinates`, `LineString`,
`Placemark`, `Folder`. -/
def write_track_footer (st : EmitState) : EmitState :=
  let st := close_tag st "coordinates"
  let st := close_tag st "LineString"
  let st := close_tag st "Placemark"
  close_tag st "Folder"

/-- One row of the per-track emission loop of `process_csv`, dispatched
on the mode string (any unrecognised mode falls through to the raw
coordinate write of track mode). -/
def emit_row (mode : String) (altitude : String) (st : EmitState)
    (data : Row) : Except PyErr EmitState :=
  let desc := desc_fmt (data F_TICK) (data F_GPS_TS) (data F_GPS_LONG)
                (data F_GPS_LAT) (data F_TRAVEL_DIST) (data F_FLY_STATE)
  if mode == MODE_PLACE then
    write_placemark st data (some " #iconPathMark") altitude none none none
      (some desc) none
  else if mode == MODE_LINE then
    let descL := line_cone_fmt (data F_TICK) (data F_GPS_TS) (data F_GPS_LONG)
      (data F_GPS_LAT) (data F_BASE_LONG) (data F_BASE_LAT)
      (data F_TRAVEL_DIST) (data F_FLY_STATE)
    write_placemark st data (some " #lineStyle1") altitude none none none
      (some descL) (some "line")
  else if mode == MODE_CONE then
    let descC := line_cone_fmt (data F_TICK) (data F_GPS_TS) (data F_GPS_LONG)
      (data F_GPS_LAT) (data F_BASE_LONG) (data F_BASE_LAT)
      (data F_TRAVEL_DIST) (data F_FLY_STATE)
    write_placemark st data (some " #polyStyle1") altitude none none none
      (some descC) (some "cone")
  else
    Except.ok (write_coords st [data])

/-- One entry of the per-track emission loop: in track mode, when the
key differs from `last_track`, close the previous track section (if one
was written) and open a new one; then emit every row of the entry. -/
def emit_track_entry (track : Bool) (mode altitude : String)
    (acc : EmitState × Bool × TrackKey) (p : Option String × List Row) :
    Except PyErr (EmitState × Bool × TrackKey) :=
  match (if track && (TrackKey.val p.1 != acc.2.2) then
           let st := if acc.2.1 then write_track_footer acc.1 else acc.1
           match write_track_header st p.2 p.1 altitude none with
           | Except.error e => Except.error e
           | Except.ok st2 => Except.ok (st2, true, TrackKey.val p.1)
         else Except.ok acc) with
  | Except.error e => Except.error e
  | Except.ok acc2 =>
    match p.2.foldlM (emit_row mode altitude) acc2.1 with
    | Except.error e => Except.error e
    | Except.ok st => Except.ok (st, acc2.2.1, acc2.2.2)

/-- The per-track emission loop of `process_csv`, with
`wrote_track`/`last_track` state and the final track footer. -/
def emit_tracks (track : Bool) (mode altitude : String) (st : EmitState)
    (csv_data : List (Option String × List Row)) : Except PyErr EmitState :=
  match csv_data.foldlM (emit_track_entry track mode altitude)
          (st, false, TrackKey.sentinel) with
  | Except.error e => Except.error e
  | Except.ok acc =>
    Except.ok (if track && acc.2.1 then write_track_footer acc.1 else acc.1)

/-- The document emission pass of `process_csv` over an assembled
`csv_data` table: KML header, style headers, optional state-change
placemarks, per-track data, KML footer.  (In the source the header and
style sections are written before ingestion begins; only the write
order matters here and it is preserved.) -/
def emit_document (mode : String) (altitude : String) (state_marks : Bool)
    (indent_kml : Bool) (track_width : Int) (track_color : String)
    (csv_data : List (Option String × List Row)) : Except PyErr EmitState :=
  let st : EmitState :=
    { out := [], events := [], ind := { enable := indent_kml, level := 0 } }
  let st := write_kml_header st
  let st := write_style_headers st track_width track_color
  match (if state_marks then write_state_placemarks st csv_data altitude
         else Except.ok st) with
  | Except.error e => Except.error e
  | Except.ok st =>
    match emit_tracks (mode == MODE_TRACK) mode altitude st csv_data with
    | Except.error e => Except.error e
    | Except.ok st => Except.ok (write_kml_footer st)

/-! ## Spec-side definitions (used to state amended claims; these
follow the specification's words, not the source, and are compared with
the source-derived definitions above). -/

/-- Spec-side: the inline rendering of a valued element — opening tag
at the current indentation, the value's lines (line breaks dropped) and
the closing tag all on one output line. -/
def inlineRender (indstr tag v : String) : List String :=
  [indstr ++ xmlOpen tag] ++ pySplitlines v ++ [xmlClose tag ++ "\n"]

/-- Spec-side: the expanded rendering of a valued element — opening
tag, each value line at one extra indent level on its own line, closing
tag on its own line. -/
def expandedRender (indstr childIndstr tag v : String) : List String :=
  [indstr ++ xmlOpen tag] ++ ["\n"]
    ++ (pySplitlines v).map (fun l => childIndstr ++ l ++ "\n")
    ++ [indstr ++ xmlClose tag ++ "\n"]

/-- Spec-side: the keys of a sequence in first-appearance order. -/
def firstAppear (l : List (Option String)) : List (Option String) :=
  l.foldl (fun acc k => if k ∈ acc then acc else acc ++ [k]) []

/-- Spec-side: the rows of the last contiguous run of track key `k`, in
arrival order (computed from the reversed row list: the first maximal
block of key `k` of the reversal, reversed back). -/
def lastBlock (k : Option String) (rows : List Row) : List Row :=
  ((rows.reverse.dropWhile (fun r => keyOf r != k)).takeWhile
     (fun r => keyOf r == k)).reverse

/-- The `(style, icon_marker)` argument pairs of every internal
`write_placemark` call site in the source: `write_state_placemarks`
(line 553), `write_track_header` (lines 582 and 587), and the
placemark, line and cone branches of `process_csv` (lines 857, 869 and
881). -/
def placemarkCallSiteArgs : List (Option String × Option String) :=
  [(none, some icon_marker_0_Red),
   (some " #iconPathStart", none),
   (some " #iconPathEnd", none),
   (some " #iconPathMark", none),
   (some " #lineStyle1", none),
   (some " #polyStyle1", none)]

/-- A concrete DJI field map (used as a witness input). -/
def fmW : FieldMap :=
  make_field_map "Tick#,GPS:Long,GPS:Lat,GPS:heightMSL" djiHeaderMap

/-- A concrete decoded row (used as a witness input). -/
def rowW : Row := getfieldTotal fmW ["5", "1.0", "2.0", "3.0"]

/-- The ingestion state after reading the four-column DJI header and
the row `"5,1.0,2.0,3.0"` with threshold 2 (a witness input). -/
def stW : IngestState :=
  { field_map := some fmW, header_read := true, pre_head_skip := 0,
    no_coord_skip := 0, ts_delta_skip := 0, ts_none_skip := 0, last_ts := 5,
    cur_track := TrackKey.val none, csv_data := [(none, [rowW])],
    accepted := [rowW] }

/-- The ingestion state right after reading the four-column DJI header
(a witness input). -/
def stReady : IngestState :=
  { field_map := some fmW, header_read := true, pre_head_skip := 0,
    no_coord_skip := 0, ts_delta_skip := 0, ts_none_skip := 0, last_ts := 0,
    cur_track := TrackKey.sentinel, csv_data := [], accepted := [] }

/-- The ingestion state after reading a bare `"Tick#"` header line
(a witness input). -/
def stHdr : IngestState :=
  { field_map := some (make_field_map "Tick#" djiHeaderMap),
    header_read := true, pre_head_skip := 0, no_coord_skip := 0,
    ts_delta_skip := 0, ts_none_skip := 0, last_ts := 0,
    cur_track := TrackKey.sentinel, csv_data := [], accepted := [] }

/-- The emission-state invariant used to verify the document builder:
the element-event history balances to the stack `σ` of currently open
element names (every close so far matched its open in LIFO order), and
the indentation level equals the stack depth when indentation is
enabled (and stays `0` otherwise). -/
def StackOk (st : EmitState) (σ : List String) : Prop :=
  runStack st.events [] = some σ
  ∧ st.ind.level = (if st.ind.enable then (σ.length : Int) else 0)

/-- Loop invariant of the per-track emission loop: when a track section
has been opened (`wrote_track` is set), the four elements of the track
header (`Folder`, `Placemark`, `LineString`, `coordinates`) are open
above the base stack; otherwise the stack is the base stack. -/
def TrackEmitInv (acc : EmitState × Bool × TrackKey) (σ : List String) : Prop :=
  (acc.2.1 = true
    ∧ StackOk acc.1
        ("coordinates" :: "LineString" :: "Placemark" :: "Folder" :: σ))
  ∨ (acc.2.1 = false ∧ StackOk acc.1 σ)

/-! ## Shared list helper lemmas -/

theorem takeWhile_eq_of_all {α : Type} {p : α → Bool} {l : List α}
    (h : l.all p = true) : l.takeWhile p = l := by
  induction l with
  | nil => rfl
  | cons c cs ih =>
    simp only [List.all_cons, Bool.and_eq_true] at h
    simp [List.takeWhile_cons, h.1, ih h.2]

theorem takeWhile_append_of_all {α : Type} {p : α → Bool} {l m : List α}
    (h : l.all p = true) : (l ++ m).takeWhile p = l ++ m.takeWhile p := by
  induction l with
  | nil => rfl
  | cons c cs ih =>
    simp only [List.all_cons, Bool.and_eq_true] at h
    simp [List.takeWhile_cons, h.1, ih h.2]

theorem takeWhile_append_stop {α : Type} {p : α → Bool} {l : List α} {c : α}
    {m : List α} (h : l.all p = true) (hc : p c = false) :
    (l ++ c :: m).takeWhile p = l := by
  rw [takeWhile_append_of_all h]
  simp [List.takeWhile_cons, hc]

theorem dropWhile_append_of_all {α : Type} {p : α → Bool} {l m : List α}
    (h : l.all p = true) : (l ++ m).dropWhile p = m.dropWhile p := by
  induction l with
  | nil => rfl
  | cons c cs ih =>
    simp only [List.all_cons, Bool.and_eq_true] at h
    simp [List.dropWhile_cons, h.1, ih h.2]

theorem dropWhile_head_not {α : Type} {p : α → Bool} {l : List α}
    (h2 : l ≠ []) (h3 : l.head?.all (fun c => !p c) = true) :
    l.dropWhile p = l := by
  match l, h2 with
  | c :: rest, _ =>
    simp only [List.head?_cons, Option.all_some, Bool.not_eq_eq_eq_not,
      Bool.not_true] at h3
    simp [List.dropWhile_cons, h3]

/-- The reverse of a list whose last element fails the predicate is
untouched by `dropWhile`. -/
theorem dropWhile_reverse_eq {α : Type} {p : α → Bool} {l : List α}
    (h2 : l ≠ []) (h3 : l.getLast?.all (fun c => !p c) = true) :
    l.reverse.dropWhile p = l.reverse := by
  apply dropWhile_head_not
  · simpa using h2
  · rwa [List.head?_reverse]

theorem rstripSetL_eq_self {l cs : List Char} (h2 : l ≠ [])
    (h3 : l.getLast?.all (fun c => !cs.contains c) = true) :
    rstripSetL l cs = l := by
  unfold rstripSetL
  rw [dropWhile_reverse_eq h2 h3, List.reverse_reverse]

theorem rstripSetL_append {l suf cs : List Char}
    (hsuf : suf.all (fun c => cs.contains c) = true)
    (h2 : l ≠ []) (h3 : l.getLast?.all (fun c => !cs.contains c) = true) :
    rstripSetL (l ++ suf) cs = l := by
  unfold rstripSetL
  rw [List.reverse_append, dropWhile_append_of_all (by simpa using hsuf),
    dropWhile_reverse_eq h2 h3, List.reverse_reverse]

theorem getLast?_of_suffix {α : Type} {l s : List α} (h : s <:+ l)
    (hs : s ≠ []) : l.getLast? = s.getLast? := by
  obtain ⟨pre, rfl⟩ := h
  exact List.getLast?_append_of_ne_nil pre hs

/-! ## C7: header canonicalisation invariance -/

/-- C7 (counterexample): the claim "for every supported model and every
header row, the Column Resolver produces the identical field-to-index
map whether or not the header cells carry decorative variations" is
false: for the manual model, the header cell `Poly_Long_1` resolves
`F_POLY_LONG_1` to index 1, but the decorated cell `Poly_Long_1(1)`
leaves it unresolved (`-1`), because `rstrip('(1)')` strips trailing
characters from the set `{'(', '1', ')'}` and so also removes the
final `1` of the undecorated name. -/
theorem make_field_map_suffix_counterexample :
    make_field_map "Time_Stamp,Poly_Long_1" manHeaderMap F_POLY_LONG_1 = 1
    ∧ make_field_map "Time_Stamp,Poly_Long_1(1)" manHeaderMap F_POLY_LONG_1
        = -1 := by
  constructor
  · decide
  · decide

/-- C7 (amended): header-cell canonicalisation is invariant under the
decorative variations — a trailing `":"`, a `"(1)"` suffix, and a
bracketed `"[...]"` tag — provided the undecorated cell contains no
`'['` and does not end in one of the characters `'('`, `')'`, `'1'`,
`':'` (the labels `Poly_Long_1`/`Poly_Lat_1` of the manual model
violate this proviso, and the counterexample above shows the invariance
really fails for them). -/
theorem canonicalise_header_decoration_invariant (b t : String)
    (h1 : b.data.all (fun c => c != '[') = true)
    (h2 : b.data ≠ [])
    (h3 : b.data.getLast?.all
        (fun c => !(['(', ')', '1', ':'] : List Char).contains c) = true) :
    canonicalise_header b = b
    ∧ canonicalise_header (b ++ ":") = b
    ∧ canonicalise_header (b ++ "(1)") = b
    ∧ canonicalise_header (b ++ "[" ++ t ++ "]") = b := by
  obtain ⟨c, hc⟩ : ∃ c, b.data.getLast? = some c := by
    cases hb : b.data.getLast? with
    | none => exact absurd (List.getLast?_eq_none_iff.mp hb) h2
    | some c => exact ⟨c, rfl⟩
  rw [hc, Option.all_some] at h3
  simp only [List.contains_cons, List.contains_nil, Bool.or_false,
    Bool.not_eq_eq_eq_not, Bool.not_true, Bool.or_eq_false_iff,
    beq_eq_false_iff_ne, ne_eq] at h3
  obtain ⟨hns1, hns2, hns3, hns4⟩ := h3
  -- the last character of `b` is not in the `rstrip` sets
  have hlast1 : b.data.getLast?.all
      (fun x => !(['(', '1', ')'] : List Char).contains x) = true := by
    rw [hc, Option.all_some]
    simp [hns1, hns2, hns3]
  have hlast2 : b.data.getLast?.all
      (fun x => !([':'] : List Char).contains x) = true := by
    rw [hc, Option.all_some]
    simp [hns4]
  -- `b` (with or without a trailing colon) does not end with "(1)"
  have hsufA : ¬ (['(', '1', ')'] <:+ b.data) := by
    intro hsuf
    have h5 := getLast?_of_suffix hsuf (by simp)
    rw [hc] at h5
    simp only [List.getLast?_cons, List.getLast?_singleton] at h5
    exact hns2 (by simpa using h5)
  have hsufB : ¬ (['(', '1', ')'] <:+ b.data ++ [':']) := by
    intro hsuf
    have h5 := getLast?_of_suffix hsuf (by simp)
    rw [List.getLast?_append_of_ne_nil _ (by simp)] at h5
    simp at h5
  -- the plain-cell computation
  have hplain : canonicalise_header b = b := by
    have hTW : List.takeWhile (fun c => c != '[') b.data = b.data :=
      takeWhile_eq_of_all h1
    simp only [canonicalise_header, String.toList, hTW]
    rw [if_neg (by simpa using hsufA), rstripSetL_eq_self h2 hlast2]
  refine ⟨hplain, ?_, ?_, ?_⟩
  · -- b ++ ":"
    have hdata : (b ++ ":").data = b.data ++ [':'] := by
      rw [String.data_append]
    have hTW : List.takeWhile (fun c => c != '[') ((b ++ ":").data)
        = b.data ++ [':'] := by
      rw [hdata, takeWhile_append_of_all h1]
      rfl
    simp only [canonicalise_header, String.toList, hTW]
    rw [if_neg (by simpa using hsufB), rstripSetL_append (by decide) h2 hlast2]
  · -- b ++ "(1)"
    have hdata : (b ++ "(1)").data = b.data ++ ['(', '1', ')'] := by
      rw [String.data_append]
    have hTW : List.takeWhile (fun c => c != '[') ((b ++ "(1)").data)
        = b.data ++ ['(', '1', ')'] := by
      rw [hdata, takeWhile_append_of_all h1]
      rfl
    simp only [canonicalise_header, String.toList, hTW]
    rw [if_pos (by simp [List.suffix_append]),
      rstripSetL_append (by decide) h2 hlast1, rstripSetL_eq_self h2 hlast2]
  · -- b ++ "[" ++ t ++ "]"
    have hdata : (b ++ "[" ++ t ++ "]").data
        = b.data ++ ('[' :: (t.data ++ [']'])) := by
      simp [String.data_append]
    have hTW : List.takeWhile (fun c => c != '[') ((b ++ "[" ++ t ++ "]").data)
        = b.data := by
      rw [hdata]
      exact takeWhile_append_stop h1 (by decide)
    simp only [canonicalise_header, String.toList, hTW]
    rw [if_neg (by simpa using hsufA), rstripSetL_eq_self h2 hlast2]

/-- Witness for the amended C7 invariance at the DJI key cell
`"Tick#"` with bracket payload `"1"`. -/
theorem canonicalise_header_decoration_invariant_witness :
    canonicalise_header "Tick#" = "Tick#"
    ∧ canonicalise_header ("Tick#" ++ ":") = "Tick#"
    ∧ canonicalise_header ("Tick#" ++ "(1)") = "Tick#"
    ∧ canonicalise_header ("Tick#" ++ "[" ++ "1" ++ "]") = "Tick#" :=
  canonicalise_header_decoration_invariant "Tick#" "1" (by decide) (by decide)
    (by decide)

/-! ## C9: color validation -/

/-- C9 (code bug): the claim says `parse_color` returns the hex color
string, without error, for every known color name and every 6- or
8-character hexadecimal string, raising only for other inputs.  In the
code as shipped (a Python 3 program) the line
`color_chars = map(str, range(0, 9)) + [...]` raises `TypeError` for
every input that passes the length check, so even `"red"` — which the
function's own docstring promises to resolve — never returns; inputs
failing the length check still raise `ValueError` as documented.
(Under a Python 2 reading, `range(0, 9)` additionally omits the digit
`'9'` from the valid set, so e.g. `"ff990000"` would be wrongly
rejected.) -/
theorem parse_color_python3_failure :
    parse_color "red"
      = Except.error (PyErr.typeError
          "unsupported operand types for +: map and list")
    ∧ parse_color "ff0000ff"
      = Except.error (PyErr.typeError
          "unsupported operand types for +: map and list")
    ∧ parse_color "xyz"
      = Except.error (PyErr.valueError "invalid color string length")
    ∧ ∀ c : String, ∃ e, parse_color c = Except.error e := by
  refine ⟨rfl, rfl, rfl, fun c => ?_⟩
  simp only [parse_color]
  split <;> exact ⟨_, rfl⟩

/-! ## C4: inline vs expanded tag rendering -/

/-- C4 (counterexample): the claim requires the inline rendering
exactly when the value has no line break AND the line fits the
72-column budget.  The code's test is a disjunction: here an 80-`'a'`
value with no line break exceeds every budget, yet `write_tag` still
renders it inline on a single line. -/
theorem write_tag_overlong_inline_counterexample :
    (write_tag { out := [], events := [], ind := { enable := true, level := 0 } }
        "name" (some (String.mk (List.replicate 80 'a')))).out
      = ["<name>", String.mk (List.replicate 80 'a'), "</name>\n"]
    ∧ 72 < ("<name>" ++ String.mk (List.replicate 80 'a')).length := by
  constructor
  · rfl
  · decide

/-- C4 (amended): `write_tag` with a value renders inline exactly when
the value contains no line break OR its length is under the remaining
budget (72 minus opening tag and indentation); otherwise it renders
expanded.  An inline rendering of a short multi-line value drops the
value's line breaks. -/
theorem write_tag_render_rule (st : EmitState) (tag v : String) :
    (write_tag st tag (some v)).out =
      st.out ++
        (if (!containsNewline v ||
              decide (Int.ofNat v.length <
                72 - Int.ofNat (xmlOpen tag ++ st.ind.indstr).length)) = true then
           inlineRender st.ind.indstr tag v
         else
           expandedRender st.ind.indstr st.ind.incr.indstr tag v) := by
  have he : xmlOpen tag ++ "" = xmlOpen tag := by simp
  simp only [write_tag, Option.isSome_some, if_true, he, inlineRender,
    expandedRender]
  split <;> simp [List.append_assoc]

/-! ## C10: mutual exclusion of style URL and icon marker -/

/-- C10: when both a truthy style URL and a truthy icon marker are
supplied, `write_placemark` raises `ValueError` (the error result
carries no output, so nothing has been written); and every internal
call site's `(style, icon_marker)` pair has at most one truthy
member. -/
theorem write_placemark_style_icon_exclusive
    (st : EmitState) (data : Row) (style : Option String) (altitude : String)
    (icon_marker heading name desc shape : Option String)
    (h1 : truthy style = true) (h2 : truthy icon_marker = true) :
    write_placemark st data style altitude icon_marker heading name desc shape
      = Except.error
          (PyErr.valueError "style and icon_marker cannot both beset")
    ∧ placemarkCallSiteArgs.all (fun p => !(truthy p.1 && truthy p.2)) = true := by
  constructor
  · simp only [write_placemark, h1, h2, Bool.and_self, if_true]
  · decide

/-- Witness for C10 at a concrete state and arguments. -/
theorem write_placemark_style_icon_exclusive_witness :
    write_placemark { out := [], events := [], ind := { enable := true, level := 0 } }
        (fun _ => none) (some "#i") "" (some "m") none none none none
      = Except.error
          (PyErr.valueError "style and icon_marker cannot both beset")
    ∧ placemarkCallSiteArgs.all (fun p => !(truthy p.1 && truthy p.2)) = true :=
  write_placemark_style_icon_exclusive _ (fun _ => none) (some "#i") ""
    (some "m") none none none none rfl rfl

/-! ## Ingestion helper lemmas -/

theorem getfield_ok_total {fm : FieldMap} {f : List String} {field : Field}
    {v : Option String} (h : getfield fm f field = Except.ok v) :
    getfieldTotal fm f field = v := by
  unfold getfield at h
  unfold getfieldTotal
  split at h
  case isTrue hc =>
    cases h
    rw [if_pos hc]
  case isFalse hc =>
    split at h
    case isTrue hi =>
      cases h
      rw [if_neg hc]
    case isFalse hi => cases h

theorem buildData_ok {fm : FieldMap} {f : List String} {data : Row}
    (h : buildData fm f = Except.ok data) : data = getfieldTotal fm f := by
  unfold buildData at h
  split at h
  · cases h
    rfl
  · cases h

/-- Exhaustive classification of a successful `process_line` step: the
line leaves the row state untouched (header handling and the
pre-header, null-timestamp and sub-threshold skips), or it only
advances `last_ts` past the threshold (null-coordinate skip), or it
both advances `last_ts` and appends the row through `track_step`. -/
theorem process_line_cases {thresh : Int} {st : IngestState} {line : String}
    {st2 : IngestState} (h : process_line thresh st line = Except.ok st2) :
    (st2.csv_data = st.csv_data ∧ st2.accepted = st.accepted
      ∧ st2.cur_track = st.cur_track ∧ st2.last_ts = st.last_ts)
    ∨ (∃ ts : Int, st2.csv_data = st.csv_data ∧ st2.accepted = st.accepted
        ∧ st2.cur_track = st.cur_track ∧ st2.last_ts = ts
        ∧ thresh ≤ ts - st.last_ts)
    ∨ (∃ data : Row,
        st2.cur_track = (track_step (st.cur_track, st.csv_data) data).1
        ∧ st2.csv_data = (track_step (st.cur_track, st.csv_data) data).2
        ∧ st2.accepted = st.accepted ++ [data]
        ∧ st2.last_ts = tsOf data ∧ thresh ≤ tsOf data - st.last_ts
        ∧ truthy (data F_TICK) = true) := by
  unfold process_line at h
  split at h
  · cases h
    exact Or.inl ⟨rfl, rfl, rfl, rfl⟩
  · split at h
    · cases h
      exact Or.inl ⟨rfl, rfl, rfl, rfl⟩
    · split at h
      · dsimp only at h
        split at h
        · cases h
        · cases h
          exact Or.inl ⟨rfl, rfl, rfl, rfl⟩
      · split at h
        · cases h
        · rename_i fm hfm
          dsimp only at h
          split at h
          · cases h
          · rename_i tickv hg
            split at h
            · cases h
              exact Or.inl ⟨rfl, rfl, rfl, rfl⟩
            · rename_i htruthy
              split at h
              · cases h
              · rename_i ts hts
                split at h
                · cases h
                  exact Or.inl ⟨rfl, rfl, rfl, rfl⟩
                · rename_i hdelta
                  split at h
                  · cases h
                  · rename_i data hbd
                    have hdata : data = getfieldTotal fm (pySplitComma (pyTrim line)) :=
                      buildData_ok hbd
                    have htv : data F_TICK = tickv := by
                      rw [hdata, getfield_ok_total hg]
                    have htsof : tsOf data = ts := by
                      unfold tsOf
                      rw [htv, hts]
                      rfl
                    have htt : truthy (data F_TICK) = true := by
                      rw [htv]
                      revert htruthy
                      cases truthy tickv <;> simp
                    split at h
                    · cases h
                      exact Or.inr (Or.inl ⟨ts, rfl, rfl, rfl, rfl,
                        by omega⟩)
                    · cases h
                      refine Or.inr (Or.inr ⟨data, rfl, rfl, rfl, ?_, ?_, htt⟩)
                      · exact htsof.symm
                      · rw [htsof]
                        omega

/-- Properties preserved by every successful `process_line` step hold
at the end of every successful ingestion. -/
theorem ingest_inv {thresh : Int} (P : IngestState → Prop)
    (hstep : ∀ st line st2, process_line thresh st line = Except.ok st2 →
      P st → P st2) :
    ∀ (lines : List String) (st0 stF : IngestState),
      List.foldlM (process_line thresh) st0 lines = Except.ok stF →
      P st0 → P stF := by
  intro lines
  induction lines with
  | nil =>
    intro st0 stF h hP
    simp only [List.foldlM_nil] at h
    cases h
    exact hP
  | cons l ls ih =>
    intro st0 stF h hP
    rw [List.foldlM_cons] at h
    cases hst : process_line thresh st0 l with
    | error e =>
      rw [hst] at h
      cases h
    | ok st1 =>
      rw [hst] at h
      exact ih st1 stF h (hstep st0 l st1 hst hP)

theorem dictAppend_ne_nil (d : List (Option String × List Row))
    (k : Option String) (r : Row) : dictAppend d k r ≠ [] := by
  cases d with
  | nil => simp [dictAppend]
  | cons p rest =>
    obtain ⟨k0, v0⟩ := p
    unfold dictAppend
    split <;> simp

theorem track_step_ne_nil (s : TrackKey × List (Option String × List Row))
    (data : Row) : (track_step s data).2 ≠ [] := by
  unfold track_step
  dsimp only
  split <;> exact dictAppend_ne_nil _ _ _

theorem chain_snoc {r : Int → Int → Prop} {a : Int} {l : List Int} {b : Int}
    (h1 : List.Chain r a l) (h2 : r (l.getLastD a) b) :
    List.Chain r a (l ++ [b]) := by
  induction l generalizing a with
  | nil =>
    simp only [List.nil_append]
    exact List.Chain.cons (by simpa using h2) List.Chain.nil
  | cons x xs ih =>
    rw [List.chain_cons] at h1
    rw [List.cons_append, List.chain_cons]
    refine ⟨h1.1, ih h1.2 ?_⟩
    rw [List.getLastD_cons] at h2
    exact h2

/-! ## C1: the decimation invariant -/

/-- C1 (counterexample): the claim says the very first accepted row is
subject to no predecessor constraint and is accepted regardless of its
time value.  In the code `last_ts` starts at `0`, so the first data row
is decimated against time `0`: with threshold 2, a lone first row with
tick `1` is rejected as a sub-threshold delta and nothing is
accepted. -/
theorem first_row_threshold_counterexample :
    (ingest_lines 2 none ["Tick#", "1"]).map
        (fun st => (st.accepted.length, st.ts_delta_skip)) = Except.ok (0, 1) :=
  rfl

/-- C1 (amended): for every nonnegative threshold, the timestamps of
the accepted rows, with the initial `last_ts` of `0` prepended, form a
chain in which each element exceeds its predecessor by at least the
threshold.  In particular adjacent accepted rows differ by at least the
threshold, and the first accepted row's time is itself at least the
threshold (it is measured against the initial `0`, not unconstrained);
with a positive threshold, the second of two consecutive rows with
identical time is always rejected. -/
theorem decimation_chain_invariant (thresh : Int) (h0 : 0 ≤ thresh)
    (fmap : Option FieldMap) (lines : List String) (st : IngestState)
    (h : ingest_lines thresh fmap lines = Except.ok st) :
    List.Chain (fun a b => thresh ≤ b - a) 0 (st.accepted.map tsOf) := by
  have main : List.Chain (fun a b => thresh ≤ b - a) 0 (st.accepted.map tsOf)
      ∧ (st.accepted.map tsOf).getLastD 0 ≤ st.last_ts := by
    refine ingest_inv
      (fun s => List.Chain (fun a b => thresh ≤ b - a) 0 (s.accepted.map tsOf)
        ∧ (s.accepted.map tsOf).getLastD 0 ≤ s.last_ts) ?_ lines _ st h
      ⟨List.Chain.nil, le_refl 0⟩
    intro s line s2 hstep hP
    rcases process_line_cases hstep with
      ⟨_, ha, _, hl⟩ | ⟨ts, _, ha, _, hl, hge⟩ | ⟨data, _, _, ha, hl, hge, _⟩
    · rw [ha, hl]
      exact hP
    · rw [ha, hl]
      exact ⟨hP.1, by have := hP.2; omega⟩
    · rw [ha, hl, List.map_append]
      constructor
      · refine chain_snoc hP.1 ?_
        have := hP.2
        omega
      · simp
  exact main.1

/-- Witness for the amended C1 at a concrete ingestion run. -/
theorem decimation_chain_invariant_witness :
    (0 : Int) ≤ 2
    ∧ List.Chain (fun a b => (2 : Int) ≤ b - a) 0 (stW.accepted.map tsOf) :=
  ⟨by decide,
   decimation_chain_invariant 2 (by decide) none
     ["Tick#,GPS:Long,GPS:Lat,GPS:heightMSL", "5,1.0,2.0,3.0"] stW rfl⟩

/-! ## C6: the empty-result error -/

/-- C6: when ingestion completes, `process_csv` raises the
empty-result error exactly when zero rows were accepted; with at least
one accepted row it returns the ingested state instead. -/
theorem empty_result_error_iff (thresh : Int) (fmap : Option FieldMap)
    (lines : List String) (st : IngestState)
    (h : ingest_lines thresh fmap lines = Except.ok st) :
    (st.accepted = [] →
      process_csv_ingest thresh fmap lines
        = Except.error (PyErr.exception "No non-skipped data rows found"))
    ∧ (st.accepted ≠ [] → process_csv_ingest thresh fmap lines = Except.ok st) := by
  have hiff : st.csv_data = [] ↔ st.accepted = [] := by
    refine ingest_inv (fun s => s.csv_data = [] ↔ s.accepted = []) ?_ lines _ st h
      (by simp [initIngest])
    intro s line s2 hstep hP
    rcases process_line_cases hstep with
      ⟨hc, ha, _, _⟩ | ⟨ts, hc, ha, _, _, _⟩ | ⟨data, _, hc, ha, _, _, _⟩
    · rw [hc, ha]
      exact hP
    · rw [hc, ha]
      exact hP
    · rw [hc, ha]
      simp [track_step_ne_nil]
  unfold process_csv_ingest
  rw [h]
  constructor
  · intro hacc
    have hc : st.csv_data = [] := hiff.mpr hacc
    simp [hc]
  · intro hacc
    have hc : st.csv_data ≠ [] := fun hcd => hacc (hiff.mp hcd)
    simp [hc]

/-- Witness for C6: a header-only input accepts zero rows and fails
with the empty-result error. -/
theorem empty_result_error_iff_witness :
    process_csv_ingest 1000000 none ["Tick#"]
      = Except.error (PyErr.exception "No non-skipped data rows found") :=
  (empty_result_error_iff 1000000 none ["Tick#"] stHdr rfl).1 rfl

/-- A line that does not contain `"Tick"` does not start with it. -/
theorem pyStartsWith_false_of_no_tick {line : String}
    (hnotick : containsTick line = false) :
    pyStartsWith line "Tick" = false := by
  unfold pyStartsWith
  have hinf : ¬ ("Tick".toList <:+: line.toList) := by
    intro hin
    have hct : containsTick line = true := decide_eq_true hin
    rw [hnotick] at hct
    cases hct
  exact decide_eq_false (fun hpre => hinf hpre.isInfix)

/-! ## C8: null / unparsable timestamp handling -/

/-- C8 (counterexample): the claim says a row whose tick field is not
parsable as an integer is rejected, tallied in the null-timestamp
counter, and never aborts the run.  In the code
`int(getfield(F_TICK))` is applied to every truthy tick value, so the
non-numeric tick `"abc"` raises `ValueError` and aborts the whole
ingestion. -/
theorem unparsable_tick_aborts_counterexample :
    ingest_lines 1000000 none ["Tick#", "abc"]
      = Except.error (PyErr.valueError "invalid literal for int") := rfl

/-- C8 (amended): a data row whose tick field is absent or empty
(falsy) is tallied in the separate null-timestamp counter and the run
continues with the next line; but a row with a present, non-empty tick
value that does not parse as an integer raises `ValueError` and aborts
ingestion. -/
theorem null_tick_skip_spec (thresh : Int) (st : IngestState) (line : String)
    (fm : FieldMap) (tickv : Option String)
    (hread : st.header_read = true)
    (hfm : st.field_map = some fm)
    (hnotick : containsTick line = false)
    (htick : getfield fm (pySplitComma (pyTrim line)) F_TICK = Except.ok tickv) :
    (truthy tickv = false →
      process_line thresh st line
        = Except.ok { st with ts_none_skip := st.ts_none_skip + 1 })
    ∧ (truthy tickv = true → pyInt (tickv.getD "") = none →
      process_line thresh st line
        = Except.error (PyErr.valueError "invalid literal for int")) := by
  have hstart := pyStartsWith_false_of_no_tick hnotick
  constructor
  · intro hfalsy
    unfold process_line
    rw [hread, hnotick, hstart, hfm]
    simp only [Bool.not_true, Bool.false_and, Bool.and_false, Bool.not_false,
      if_false, Bool.false_eq_true]
    rw [htick]
    simp only [hfalsy, Bool.not_false, if_true]
  · intro htruthy hbad
    unfold process_line
    rw [hread, hnotick, hstart, hfm]
    simp only [Bool.not_true, Bool.false_and, Bool.and_false, Bool.not_false,
      if_false, Bool.false_eq_true]
    rw [htick]
    simp only [htruthy, Bool.not_true, Bool.false_eq_true, if_false]
    rw [hbad]

/-- Witness for the amended C8: an empty tick cell is tallied as a
null-timestamp skip. -/
theorem null_tick_skip_spec_witness :
    process_line 1000000 stReady ""
      = Except.ok { stReady with ts_none_skip := stReady.ts_none_skip + 1 } :=
  (null_tick_skip_spec 1000000 stReady "" fmW (some "") rfl rfl rfl rfl).1 rfl

/-! ## C5: the coordinate-validity filter -/

/-- C5: a row that passes the timestamp checks but whose three
coordinate fields are all null or all the `"0.0"` sentinel is rejected
and tallied as a null-coordinate skip when the base-longitude field is
falsy; when the base-longitude field has a truthy value the row is
accepted (appended through `track_step`) despite the missing primary
coordinates.  (`null` here is Python falsiness: `None` or the empty
string, as produced by an absent column or an empty cell.) -/
theorem coordinate_filter_spec (thresh : Int) (st : IngestState)
    (line : String) (fm : FieldMap) (tickv : Option String) (ts : Int)
    (data : Row)
    (hread : st.header_read = true)
    (hfm : st.field_map = some fm)
    (hnotick : containsTick line = false)
    (htick : getfield fm (pySplitComma (pyTrim line)) F_TICK = Except.ok tickv)
    (htruthy : truthy tickv = true)
    (hts : pyInt (tickv.getD "") = some ts)
    (hdelta : ¬ (ts - st.last_ts < thresh))
    (hdata : buildData fm (pySplitComma (pyTrim line)) = Except.ok data)
    (hcoords : (data F_GPS_LONG = none ∧ data F_GPS_LAT = none
                  ∧ data F_GPS_ALT = none)
      ∨ (data F_GPS_LONG = some "0.0" ∧ data F_GPS_LAT = some "0.0"
          ∧ data F_GPS_ALT = some "0.0")) :
    (truthy (data F_BASE_LONG) = false →
      process_line thresh st line
        = Except.ok { st with
            last_ts := ts,
            no_coord_skip := st.no_coord_skip + 1 })
    ∧ (truthy (data F_BASE_LONG) = true →
      process_line thresh st line
        = Except.ok { st with
            last_ts := ts,
            cur_track := (track_step (st.cur_track, st.csv_data) data).1,
            csv_data := (track_step (st.cur_track, st.csv_data) data).2,
            accepted := st.accepted ++ [data] }) := by
  have hstart := pyStartsWith_false_of_no_tick hnotick
  have hcond : ([data F_GPS_LONG, data F_GPS_LAT, data F_GPS_ALT].all
        (fun c => !truthy c)
      || [data F_GPS_LONG, data F_GPS_LAT, data F_GPS_ALT].all
        (fun c => c == some "0.0")) = true := by
    rcases hcoords with ⟨h1, h2, h3⟩ | ⟨h1, h2, h3⟩
    · simp [h1, h2, h3, truthy]
    · simp [h1, h2, h3]
  constructor
  · intro hbase
    unfold process_line
    rw [hread, hnotick, hstart, hfm]
    simp only [Bool.not_true, Bool.false_and, Bool.and_false, Bool.not_false,
      if_false, Bool.false_eq_true]
    rw [htick]
    simp only [htruthy, Bool.not_true, Bool.false_eq_true, if_false]
    rw [hts]
    simp only [if_neg hdelta]
    rw [hdata]
    simp only [hcond, hbase, Bool.not_false, Bool.and_self, if_true,
      Bool.true_and]
  · intro hbase
    unfold process_line
    rw [hread, hnotick, hstart, hfm]
    simp only [Bool.not_true, Bool.false_and, Bool.and_false, Bool.not_false,
      if_false, Bool.false_eq_true]
    rw [htick]
    simp only [htruthy, Bool.not_true, Bool.false_eq_true, if_false]
    rw [hts]
    simp only [if_neg hdelta]
    rw [hdata]
    simp only [hcond, hbase, Bool.not_true, Bool.and_false,
      Bool.false_eq_true, if_false]

/-- Witness for C5: a row of all-`"0.0"` coordinates with no base
location is tallied as a null-coordinate skip. -/
theorem coordinate_filter_spec_witness :
    process_line 1 stReady "7,0.0,0.0,0.0"
      = Except.ok { stReady with
          last_ts := 7,
          no_coord_skip := stReady.no_coord_skip + 1 } :=
  (coordinate_filter_spec 1 stReady "7,0.0,0.0,0.0" fmW (some "7") 7
      (getfieldTotal fmW (pySplitComma (pyTrim "7,0.0,0.0,0.0")))
      rfl rfl rfl rfl rfl rfl (by decide) rfl
      (Or.inr ⟨rfl, rfl, rfl⟩)).1 rfl

/-! ## Dictionary lemmas (for the Track Assembler) -/

theorem dictLookup_dictSet_self (d : List (Option String × List Row))
    (k : Option String) (v : List Row) :
    dictLookup (dictSet d k v) k = some v := by
  induction d with
  | nil => simp [dictSet, dictLookup]
  | cons p rest ih =>
    obtain ⟨k0, v0⟩ := p
    by_cases hk : k0 = k
    · simp [dictSet, dictLookup, hk]
    · simp [dictSet, dictLookup, hk, ih]

theorem dictLookup_dictSet_ne (d : List (Option String × List Row))
    {k k2 : Option String} (v : List Row) (h : k2 ≠ k) :
    dictLookup (dictSet d k v) k2 = dictLookup d k2 := by
  induction d with
  | nil => simp [dictSet, dictLookup, Ne.symm h]
  | cons p rest ih =>
    obtain ⟨k0, v0⟩ := p
    by_cases hk : k0 = k
    · subst hk
      simp [dictSet, dictLookup, Ne.symm h]
    · simp [dictSet, dictLookup, hk, ih]

theorem dictAppend_dictSet (d : List (Option String × List Row))
    (k : Option String) (v : List Row) (r : Row) :
    dictAppend (dictSet d k v) k r = dictSet d k (v ++ [r]) := by
  induction d with
  | nil => simp [dictSet, dictAppend]
  | cons p rest ih =>
    obtain ⟨k0, v0⟩ := p
    by_cases hk : k0 = k
    · simp [dictSet, dictAppend, hk]
    · simp [dictSet, dictAppend, hk, ih]

theorem dictLookup_dictAppend_self (d : List (Option String × List Row))
    (k : Option String) (r : Row) :
    dictLookup (dictAppend d k r) k
      = some ((dictLookup d k).getD [] ++ [r]) := by
  induction d with
  | nil => simp [dictAppend, dictLookup]
  | cons p rest ih =>
    obtain ⟨k0, v0⟩ := p
    by_cases hk : k0 = k
    · simp [dictAppend, dictLookup, hk]
    · simp [dictAppend, dictLookup, hk, ih]

theorem dictLookup_dictAppend_ne (d : List (Option String × List Row))
    {k k2 : Option String} (r : Row) (h : k2 ≠ k) :
    dictLookup (dictAppend d k r) k2 = dictLookup d k2 := by
  induction d with
  | nil => simp [dictAppend, dictLookup, Ne.symm h]
  | cons p rest ih =>
    obtain ⟨k0, v0⟩ := p
    by_cases hk : k0 = k
    · subst hk
      simp [dictAppend, dictLookup, Ne.symm h]
    · simp [dictAppend, dictLookup, hk, ih]

theorem map_fst_dictSet (d : List (Option String × List Row))
    (k : Option String) (v : List Row) :
    (dictSet d k v).map Prod.fst
      = if k ∈ d.map Prod.fst then d.map Prod.fst
        else d.map Prod.fst ++ [k] := by
  induction d with
  | nil => simp [dictSet]
  | cons p rest ih =>
    obtain ⟨k0, v0⟩ := p
    by_cases hk : k0 = k
    · subst hk
      simp [dictSet]
    · by_cases hmem : k ∈ rest.map Prod.fst
      · simp [dictSet, hk, ih, hmem, Ne.symm hk]
      · simp [dictSet, hk, ih, hmem, Ne.symm hk]

theorem map_fst_dictAppend (d : List (Option String × List Row))
    (k : Option String) (r : Row) :
    (dictAppend d k r).map Prod.fst
      = if k ∈ d.map Prod.fst then d.map Prod.fst
        else d.map Prod.fst ++ [k] := by
  induction d with
  | nil => simp [dictAppend]
  | cons p rest ih =>
    obtain ⟨k0, v0⟩ := p
    by_cases hk : k0 = k
    · subst hk
      simp [dictAppend]
    · by_cases hmem : k ∈ rest.map Prod.fst
      · simp [dictAppend, hk, ih, hmem, Ne.symm hk]
      · simp [dictAppend, hk, ih, hmem, Ne.symm hk]

theorem dictLookup_isSome_iff (d : List (Option String × List Row))
    (k : Option String) :
    (dictLookup d k).isSome = true ↔ k ∈ d.map Prod.fst := by
  induction d with
  | nil => simp [dictLookup]
  | cons p rest ih =>
    obtain ⟨k0, v0⟩ := p
    by_cases hk : k0 = k
    · subst hk
      simp [dictLookup]
    · simp [dictLookup, hk, ih, Ne.symm hk]

/-! ## `firstAppear` and `lastBlock` lemmas -/

theorem mem_firstAppear_aux (l : List (Option String)) (k : Option String) :
    ∀ acc : List (Option String),
      (k ∈ l.foldl (fun acc k2 => if k2 ∈ acc then acc else acc ++ [k2]) acc
        ↔ k ∈ acc ∨ k ∈ l) := by
  induction l with
  | nil => simp
  | cons x xs ih =>
    intro acc
    rw [List.foldl_cons]
    by_cases hx : x ∈ acc
    · rw [if_pos hx, ih acc, List.mem_cons]
      constructor
      · rintro (h | h)
        · exact Or.inl h
        · exact Or.inr (Or.inr h)
      · rintro (h | rfl | h)
        · exact Or.inl h
        · exact Or.inl hx
        · exact Or.inr h
    · rw [if_neg hx, ih (acc ++ [x]), List.mem_cons, List.mem_append,
        List.mem_singleton]
      tauto

theorem mem_firstAppear (l : List (Option String)) (k : Option String) :
    k ∈ firstAppear l ↔ k ∈ l := by
  rw [firstAppear, mem_firstAppear_aux]
  simp

theorem firstAppear_snoc (l : List (Option String)) (k : Option String) :
    firstAppear (l ++ [k])
      = if k ∈ l then firstAppear l else firstAppear l ++ [k] := by
  have h1 : firstAppear (l ++ [k])
      = if k ∈ firstAppear l then firstAppear l else firstAppear l ++ [k] := by
    unfold firstAppear
    rw [List.foldl_append, List.foldl_cons, List.foldl_nil]
  rw [h1]
  by_cases hk : k ∈ l
  · rw [if_pos ((mem_firstAppear l k).mpr hk), if_pos hk]
  · rw [if_neg (fun h => hk ((mem_firstAppear l k).mp h)), if_neg hk]

theorem lastBlock_snoc_same {rows : List Row} {r : Row} {k : Option String}
    (hk : keyOf r = k) (hne : rows ≠ [])
    (hlk : keyOf (rows.getLast hne) = k) :
    lastBlock k (rows ++ [r]) = lastBlock k rows ++ [r] := by
  unfold lastBlock
  rw [List.reverse_append, List.reverse_singleton, List.singleton_append]
  rw [List.dropWhile_cons, if_neg (by simp [hk])]
  rw [List.takeWhile_cons, if_pos (by simp [hk])]
  obtain ⟨x, rest, hrev⟩ : ∃ x rest, rows.reverse = x :: rest := by
    cases hr : rows.reverse with
    | nil => exact absurd (List.reverse_eq_nil_iff.mp hr) hne
    | cons x rest => exact ⟨x, rest, rfl⟩
  have hx : keyOf x = k := by
    have hh : rows.reverse.head? = some x := by rw [hrev]; rfl
    rw [List.head?_reverse] at hh
    rw [List.getLast?_eq_getLast rows hne] at hh
    cases hh
    exact hlk
  rw [hrev, List.dropWhile_cons, if_neg (by simp [hx]), List.reverse_cons]

theorem lastBlock_snoc_new {rows : List Row} {r : Row} {k : Option String}
    (hk : keyOf r = k)
    (hlast : rows = [] ∨ ∃ h : rows ≠ [], keyOf (rows.getLast h) ≠ k) :
    lastBlock k (rows ++ [r]) = [r] := by
  unfold lastBlock
  rw [List.reverse_append, List.reverse_singleton, List.singleton_append]
  rw [List.dropWhile_cons, if_neg (by simp [hk])]
  rw [List.takeWhile_cons, if_pos (by simp [hk])]
  rcases hlast with rfl | ⟨hne, hlk⟩
  · rfl
  · obtain ⟨x, rest, hrev⟩ : ∃ x rest, rows.reverse = x :: rest := by
      cases hr : rows.reverse with
      | nil => exact absurd (List.reverse_eq_nil_iff.mp hr) hne
      | cons x rest => exact ⟨x, rest, rfl⟩
    have hx : keyOf x ≠ k := by
      have hh : rows.reverse.head? = some x := by rw [hrev]; rfl
      rw [List.head?_reverse] at hh
      rw [List.getLast?_eq_getLast rows hne] at hh
      cases hh
      exact hlk
    rw [hrev, List.takeWhile_cons, if_neg (by simp [hx])]
    rfl

theorem lastBlock_snoc_other {rows : List Row} {r : Row}
    {k k2 : Option String} (hk : keyOf r = k) (hne : k2 ≠ k) :
    lastBlock k2 (rows ++ [r]) = lastBlock k2 rows := by
  unfold lastBlock
  rw [List.reverse_append, List.reverse_singleton, List.singleton_append]
  rw [List.dropWhile_cons, if_pos (by simp [hk, Ne.symm hne])]

theorem track_step_reset {s : TrackKey × List (Option String × List Row)}
    {data : Row}
    (hc : s.1 = TrackKey.sentinel ∨ s.1 ≠ TrackKey.val (keyOf data)) :
    track_step s data
      = (TrackKey.val (keyOf data), dictSet s.2 (keyOf data) [data]) := by
  unfold keyOf at hc ⊢
  unfold track_step
  dsimp only
  rw [if_pos hc, dictAppend_dictSet, List.nil_append]

theorem track_step_extend {s : TrackKey × List (Option String × List Row)}
    {data : Row}
    (hc : ¬ (s.1 = TrackKey.sentinel ∨ s.1 ≠ TrackKey.val (keyOf data))) :
    track_step s data = (s.1, dictAppend s.2 (keyOf data) data) := by
  unfold keyOf at hc ⊢
  unfold track_step
  dsimp only
  rw [if_neg hc]

/-- The cumulative effect of the track-accumulation step over any row
sequence: the current track is the last row's key; the dictionary's
keys are the row keys in first-appearance order; and each key's entry
holds exactly the rows of the last contiguous run of that key (earlier
runs of a reappearing key have been discarded by the reset). -/
theorem track_fold_spec (rows : List Row) :
    ((List.foldl track_step (TrackKey.sentinel, []) rows).1
        = (match rows.getLast? with
           | none => TrackKey.sentinel
           | some r => TrackKey.val (keyOf r)))
    ∧ (List.foldl track_step (TrackKey.sentinel, []) rows).2.map Prod.fst
        = firstAppear (rows.map keyOf)
    ∧ ∀ k, dictLookup (List.foldl track_step (TrackKey.sentinel, []) rows).2 k
        = if k ∈ rows.map keyOf then some (lastBlock k rows) else none := by
  induction rows using List.reverseRecOn with
  | nil =>
    refine ⟨rfl, rfl, fun k => ?_⟩
    simp [dictLookup]
  | append_singleton rows r ih =>
    obtain ⟨ih1, ih2, ih3⟩ := ih
    rw [List.foldl_append, List.foldl_cons, List.foldl_nil]
    cases hr : rows.getLast? with
    | none =>
      have hrows : rows = [] := List.getLast?_eq_none_iff.mp hr
      subst hrows
      refine ⟨?_, ?_, fun k => ?_⟩
      · simp [track_step, keyOf]
      · simp [track_step, dictSet, dictAppend, firstAppear, keyOf]
      · by_cases hk : k = keyOf r
        · subst hk
          simp [track_step, dictSet, dictAppend, dictLookup, lastBlock, keyOf]
        · have hkk : k ≠ r F_TRACK_NO := hk
          simp [track_step, dictSet, dictAppend, dictLookup, hkk, Ne.symm hkk,
            hk]
    | some lastRow =>
      have hne : rows ≠ [] := by
        intro h
        rw [h] at hr
        cases hr
      have hlast : rows.getLast hne = lastRow := by
        have h2 := List.getLast?_eq_getLast rows hne
        rw [hr] at h2
        cases h2
        rfl
      rw [hr] at ih1
      have hmemlast : keyOf lastRow ∈ rows.map keyOf := by
        refine List.mem_map_of_mem keyOf ?_
        rw [← hlast]
        exact List.getLast_mem hne
      have hs1 : (List.foldl track_step (TrackKey.sentinel, []) rows).1
          = TrackKey.val (keyOf lastRow) := ih1
      by_cases hksame : keyOf lastRow = keyOf r
      · -- the row continues the current run
        have hcc : ¬ ((List.foldl track_step (TrackKey.sentinel, []) rows).1
            = TrackKey.sentinel
            ∨ (List.foldl track_step (TrackKey.sentinel, []) rows).1
              ≠ TrackKey.val (keyOf r)) := by
          push_neg
          rw [hs1, hksame]
          exact ⟨by simp, rfl⟩
        rw [track_step_extend hcc]
        have hmem : keyOf r ∈ rows.map keyOf := hksame ▸ hmemlast
        refine ⟨?_, ?_, fun k2 => ?_⟩
        · rw [hs1, hksame]
          simp
        · rw [map_fst_dictAppend, ih2, List.map_append, List.map_singleton,
            firstAppear_snoc, if_pos hmem,
            if_pos ((mem_firstAppear (rows.map keyOf) (keyOf r)).mpr hmem)]
        · by_cases hk2 : k2 = keyOf r
          · subst hk2
            rw [dictLookup_dictAppend_self, ih3, if_pos hmem]
            rw [List.map_append, List.map_singleton,
              if_pos (by simp), Option.getD_some]
            rw [lastBlock_snoc_same rfl hne (by rw [hlast, hksame])]
          · rw [dictLookup_dictAppend_ne _ _ hk2, ih3,
              List.map_append, List.map_singleton]
            have hmem2 : k2 ∈ rows.map keyOf ++ [keyOf r]
                ↔ k2 ∈ rows.map keyOf := by
              simp [hk2]
            by_cases hin : k2 ∈ rows.map keyOf
            · rw [if_pos hin, if_pos (hmem2.mpr hin),
                lastBlock_snoc_other rfl hk2]
            · rw [if_neg hin, if_neg (fun h => hin (hmem2.mp h))]
      · -- the row starts a new run: the key's entry is reset
        have hcc : (List.foldl track_step (TrackKey.sentinel, []) rows).1
            = TrackKey.sentinel
            ∨ (List.foldl track_step (TrackKey.sentinel, []) rows).1
              ≠ TrackKey.val (keyOf r) := by
          right
          rw [hs1]
          intro h2
          rw [TrackKey.val.injEq] at h2
          exact hksame h2
        rw [track_step_reset hcc]
        refine ⟨by simp, ?_, fun k2 => ?_⟩
        · rw [map_fst_dictSet, ih2, List.map_append, List.map_singleton,
            firstAppear_snoc]
          by_cases hmem : keyOf r ∈ rows.map keyOf
          · rw [if_pos hmem,
              if_pos ((mem_firstAppear (rows.map keyOf) (keyOf r)).mpr hmem)]
          · rw [if_neg hmem, if_neg
              (fun h => hmem ((mem_firstAppear (rows.map keyOf) (keyOf r)).mp h))]
        · by_cases hk2 : k2 = keyOf r
          · subst hk2
            rw [dictLookup_dictSet_self, List.map_append, List.map_singleton,
              if_pos (by simp)]
            rw [lastBlock_snoc_new rfl
              (Or.inr ⟨hne, by rw [hlast]; exact fun h => hksame h⟩)]
          · rw [dictLookup_dictSet_ne _ _ hk2, ih3,
              List.map_append, List.map_singleton]
            have hmem2 : k2 ∈ rows.map keyOf ++ [keyOf r]
                ↔ k2 ∈ rows.map keyOf := by
              simp [hk2]
            by_cases hin : k2 ∈ rows.map keyOf
            · rw [if_pos hin, if_pos (hmem2.mpr hin),
                lastBlock_snoc_other rfl hk2]
            · rw [if_neg hin, if_neg (fun h => hin (hmem2.mp h))]

/-- The track state of a completed ingestion is the fold of the
track-accumulation step over the accepted rows, in arrival order. -/
theorem track_state_factorization (thresh : Int) (fmap : Option FieldMap)
    (lines : List String) (st : IngestState)
    (h : ingest_lines thresh fmap lines = Except.ok st) :
    (st.cur_track, st.csv_data)
      = List.foldl track_step (TrackKey.sentinel, []) st.accepted := by
  refine ingest_inv
    (fun s => (s.cur_track, s.csv_data)
       = List.foldl track_step (TrackKey.sentinel, []) s.accepted) ?_
    lines _ st h rfl
  intro s line s2 hstep hP
  rcases process_line_cases hstep with
    ⟨hc, ha, ht, _⟩ | ⟨ts, hc, ha, ht, _, _⟩ | ⟨data, ht, hc, ha, _, _, _⟩
  · rw [ht, hc, ha]
    exact hP
  · rw [ht, hc, ha]
    exact hP
  · rw [ht, hc, ha, List.foldl_append, List.foldl_cons, List.foldl_nil, ← hP]

/-! ## C2: track assembly -/

/-- C2 (counterexample): the claim says rows within each track appear
in the output in original input order, including when the same
identifier value reappears after an intervening different value.  With
track numbers 1, 2, 1 on three accepted rows, `csv_data[cur_track] = []`
resets track `"1"` on its reappearance: its entry retains only the
third row (tick 3000000); the first row (tick 1000000) is discarded.
(Key order is still first-appearance order.) -/
theorem track_reset_counterexample :
    (ingest_lines 1000000 none
        ["Tick#,GPS:Long,GPS:Lat,GPS:heightMSL,Track #",
         "1000000,1.0,2.0,3.0,1",
         "2000000,1.5,2.5,3.5,2",
         "3000000,1.7,2.7,3.7,1"]).map
        (fun st => st.csv_data.map
          (fun p => (p.1, p.2.map (fun r => r F_TICK))))
      = Except.ok [(some "1", [some "3000000"]), (some "2", [some "2000000"])] :=
  rfl

/-- C2 (amended): after ingestion, the track keys appear in
first-appearance order of the accepted rows' identifier values, and
each key's track holds exactly the rows of the most recent contiguous
run of that identifier, in arrival order — when an identifier
reappears after an intervening different value its track is reset, so
rows of earlier runs are discarded. -/
theorem track_assembly_spec (thresh : Int) (fmap : Option FieldMap)
    (lines : List String) (st : IngestState)
    (h : ingest_lines thresh fmap lines = Except.ok st) :
    st.csv_data.map Prod.fst = firstAppear (st.accepted.map keyOf)
    ∧ ∀ k, dictLookup st.csv_data k
        = if k ∈ st.accepted.map keyOf then some (lastBlock k st.accepted)
          else none := by
  have hfact := track_state_factorization thresh fmap lines st h
  have hspec := track_fold_spec st.accepted
  have hcsv : st.csv_data
      = (List.foldl track_step (TrackKey.sentinel, []) st.accepted).2 :=
    congrArg Prod.snd hfact
  rw [hcsv]
  exact ⟨hspec.2.1, hspec.2.2⟩

/-- Witness for the amended C2 at a concrete one-row ingestion. -/
theorem track_assembly_spec_witness :
    stW.csv_data.map Prod.fst = firstAppear (stW.accepted.map keyOf)
    ∧ dictLookup stW.csv_data none
      = (if none ∈ stW.accepted.map keyOf
         then some (lastBlock none stW.accepted) else none) :=
  ⟨(track_assembly_spec 2 none
      ["Tick#,GPS:Long,GPS:Lat,GPS:heightMSL", "5,1.0,2.0,3.0"] stW rfl).1,
   (track_assembly_spec 2 none
      ["Tick#,GPS:Long,GPS:Lat,GPS:heightMSL", "5,1.0,2.0,3.0"] stW rfl).2 none⟩

/-! ## Tag-emitter primitive lemmas (for the round-trip invariant) -/

theorem Indent.decr_incr (i : Indent) : i.decr.incr = i := by
  cases i with
  | mk e l =>
    unfold Indent.decr Indent.incr
    by_cases h : e = true <;> simp [h]

theorem Indent.enable_incr (i : Indent) : i.incr.enable = i.enable := by
  unfold Indent.incr
  split <;> rfl

theorem Indent.enable_decr (i : Indent) : i.decr.enable = i.enable := by
  unfold Indent.decr
  split <;> rfl

theorem Indent.level_incr (i : Indent) :
    i.incr.level = if i.enable then i.level + 1 else i.level := by
  unfold Indent.incr
  split <;> simp [*]

theorem Indent.level_decr (i : Indent) :
    i.decr.level = if i.enable then i.level - 1 else i.level := by
  unfold Indent.decr
  split <;> simp [*]

theorem events_write_tag_none (st : EmitState) (t : String) :
    (write_tag st t none).events = st.events ++ [Ev.openEl t] := rfl

theorem ind_write_tag_none (st : EmitState) (t : String) :
    (write_tag st t none).ind = st.ind.incr := rfl

theorem events_write_tag_some (st : EmitState) (t v : String) :
    (write_tag st t (some v)).events
      = st.events ++ [Ev.openEl t, Ev.closeEl t] := by
  unfold write_tag
  simp only [Option.isSome_some, if_true]
  split <;> rfl

theorem ind_write_tag_some (st : EmitState) (t v : String) :
    (write_tag st t (some v)).ind = st.ind := by
  unfold write_tag
  simp only [Option.isSome_some, if_true]
  split
  · rfl
  · exact Indent.decr_incr st.ind

theorem events_close_tag (st : EmitState) (t : String) :
    (close_tag st t).events = st.events ++ [Ev.closeEl (firstWord t)] := rfl

theorem ind_close_tag (st : EmitState) (t : String) :
    (close_tag st t).ind = st.ind.decr := rfl

theorem events_write_coords (st : EmitState) (ds : List Row) :
    (write_coords st ds).events = st.events := rfl

theorem ind_write_coords (st : EmitState) (ds : List Row) :
    (write_coords st ds).ind = st.ind := rfl

theorem runStack_append (a b : List Ev) (s : List String) :
    runStack (a ++ b) s = (runStack a s).bind (fun s2 => runStack b s2) := by
  induction a generalizing s with
  | nil => rfl
  | cons e rest ih =>
    cases e with
    | openEl t => simp [runStack, ih]
    | closeEl c =>
      cases s with
      | nil => rfl
      | cons top s1 =>
        by_cases h : top = c
        · simp [runStack, h, ih]
        · simp [runStack, h]

theorem stackok_tag_open {st : EmitState} {σ : List String} (t : String)
    (h : StackOk st σ) : StackOk (write_tag st t none) (firstWord t :: σ) := by
  obtain ⟨h1, h2⟩ := h
  constructor
  · rw [events_write_tag_none, runStack_append, h1]
    rfl
  · rw [ind_write_tag_none, Indent.level_incr, Indent.enable_incr]
    by_cases he : st.ind.enable = true <;> simp [he] at h2 ⊢ <;> omega

theorem stackok_tag_value {st : EmitState} {σ : List String} {t : String}
    (hw : firstWord t = t) (v : String) (h : StackOk st σ) :
    StackOk (write_tag st t (some v)) σ := by
  obtain ⟨h1, h2⟩ := h
  constructor
  · rw [events_write_tag_some, runStack_append, h1]
    simp [runStack, hw]
  · rw [ind_write_tag_some]
    exact h2

theorem stackok_close {st : EmitState} {σ : List String} {c : String}
    (t : String) (hc : firstWord t = c) (h : StackOk st (c :: σ)) :
    StackOk (close_tag st t) σ := by
  obtain ⟨h1, h2⟩ := h
  constructor
  · rw [events_close_tag, runStack_append, h1, hc]
    simp [runStack]
  · rw [ind_close_tag, Indent.level_decr, Indent.enable_decr]
    by_cases he : st.ind.enable = true <;> simp [he] at h2 ⊢ <;> omega

theorem stackok_coords {st : EmitState} {σ : List String} (ds : List Row)
    (h : StackOk st σ) : StackOk (write_coords st ds) σ := by
  obtain ⟨h1, h2⟩ := h
  exact ⟨by rw [events_write_coords]; exact h1,
         by rw [ind_write_coords]; exact h2⟩

theorem stackok_write_line_style {st : EmitState} {σ : List String}
    (color width : String) (h : StackOk st σ) :
    StackOk (write_line_style st color width) σ := by
  unfold write_line_style
  exact stackok_close "LineStyle" rfl
    (stackok_tag_value rfl width
      (stackok_tag_value rfl color (stackok_tag_open "LineStyle" h)))

theorem stackok_write_poly_style {st : EmitState} {σ : List String}
    (color : String) (h : StackOk st σ) :
    StackOk (write_poly_style st color) σ := by
  unfold write_poly_style
  exact stackok_close "PolyStyle" rfl
    (stackok_tag_value rfl color (stackok_tag_open "PolyStyle" h))

theorem stackok_write_icon_style {st : EmitState} {σ : List String}
    (href scale heading : Option String) (hhref : href.isSome = true)
    (h : StackOk st σ) : StackOk (write_icon_style st href scale heading) σ := by
  obtain ⟨hv, rfl⟩ : ∃ v, href = some v := by
    cases href with
    | none => cases hhref
    | some v => exact ⟨v, rfl⟩
  unfold write_icon_style
  cases scale with
  | none =>
    cases heading with
    | none =>
      exact stackok_close "IconStyle" rfl (stackok_close "Icon" rfl
        (stackok_tag_value rfl hv (stackok_tag_open "Icon"
          (stackok_tag_open "IconStyle" h))))
    | some hd =>
      exact stackok_close "IconStyle" rfl (stackok_close "Icon" rfl
        (stackok_tag_value rfl hv (stackok_tag_open "Icon"
          (stackok_tag_value rfl hd (stackok_tag_open "IconStyle" h)))))
  | some sc =>
    cases heading with
    | none =>
      exact stackok_close "IconStyle" rfl (stackok_close "Icon" rfl
        (stackok_tag_value rfl hv (stackok_tag_open "Icon"
          (stackok_tag_value rfl sc (stackok_tag_open "IconStyle" h)))))
    | some hd =>
      exact stackok_close "IconStyle" rfl (stackok_close "Icon" rfl
        (stackok_tag_value rfl hv (stackok_tag_open "Icon"
          (stackok_tag_value rfl hd
            (stackok_tag_value rfl sc (stackok_tag_open "IconStyle" h))))))

theorem stackok_write_style {st : EmitState} {σ : List String}
    (style line_color poly_color line_width : Option String)
    (icon_style : Option (Option String × Option String × Option String))
    (hfw : firstWord (if truthy style = true
        then "Style id=\"" ++ style.getD "" ++ "\"" else "Style") = "Style")
    (hicon : ∀ p, icon_style = some p → p.1.isSome = true)
    (h : StackOk st σ) :
    StackOk (write_style st style line_color poly_color line_width icon_style)
      σ := by
  unfold write_style
  dsimp only
  have hopen : StackOk (write_tag st (if truthy style = true
      then "Style id=\"" ++ style.getD "" ++ "\"" else "Style") none)
      ("Style" :: σ) := by
    have h2 := stackok_tag_open (if truthy style = true
      then "Style id=\"" ++ style.getD "" ++ "\"" else "Style") h
    rw [hfw] at h2
    exact h2
  refine stackok_close styleTagTemplate rfl ?_
  cases icon_style with
  | none =>
    by_cases hl : truthy line_color = true
    · by_cases hp : truthy poly_color = true
      · rw [if_pos hl, if_pos hp]
        exact stackok_write_poly_style _ (stackok_write_line_style _ _ hopen)
      · rw [if_pos hl, if_neg hp]
        exact stackok_write_line_style _ _ hopen
    · by_cases hp : truthy poly_color = true
      · rw [if_neg hl, if_pos hp]
        exact stackok_write_poly_style _ hopen
      · rw [if_neg hl, if_neg hp]
        exact hopen
  | some p =>
    obtain ⟨href, sc, hd⟩ := p
    refine stackok_write_icon_style _ _ _ (hicon (href, sc, hd) rfl) ?_
    by_cases hl : truthy line_color = true
    · by_cases hp : truthy poly_color = true
      · rw [if_pos hl, if_pos hp]
        exact stackok_write_poly_style _ (stackok_write_line_style _ _ hopen)
      · rw [if_pos hl, if_neg hp]
        exact stackok_write_line_style _ _ hopen
    · by_cases hp : truthy poly_color = true
      · rw [if_neg hl, if_pos hp]
        exact stackok_write_poly_style _ hopen
      · rw [if_neg hl, if_neg hp]
        exact hopen

theorem stackok_write_style_headers {st : EmitState} {σ : List String}
    (width : Int) (color : String) (h : StackOk st σ) :
    StackOk (write_style_headers st width color) σ := by
  unfold write_style_headers
  dsimp only
  refine stackok_write_style _ _ _ _ _ rfl (fun p hp => nomatch hp)
    (stackok_write_style _ _ _ _ _ rfl (fun p hp => by cases hp; rfl)
      (stackok_write_style _ _ _ _ _ rfl (fun p hp => by cases hp; rfl)
        (stackok_write_style _ _ _ _ _ rfl (fun p hp => by cases hp; rfl)
          (stackok_write_style _ _ _ _ _ rfl (fun p hp => nomatch hp) h))))

theorem stackok_kml_header {st : EmitState} {σ : List String}
    (h : StackOk st σ) :
    StackOk (write_kml_header st) ("Document" :: "kml" :: σ) := by
  unfold write_kml_header
  refine stackok_tag_open "Document" (stackok_tag_open kmlTag ?_)
  exact ⟨h.1, h.2⟩

theorem stackok_kml_footer {st : EmitState} {σ : List String}
    (h : StackOk st ("Document" :: "kml" :: σ)) :
    StackOk (write_kml_footer st) σ := by
  unfold write_kml_footer
  exact stackok_close kmlTag rfl (stackok_close "Document" rfl h)

theorem truthy_some_iff (s : String) : truthy (some s) = true ↔ s ≠ "" := by
  unfold truthy
  simp

theorem truthy_slice (s : String) (hs : truthy (some s) = true) :
    truthy (some (String.mk (s.toList.take 11))) = true := by
  rw [truthy_some_iff] at hs ⊢
  intro he
  have hl : s.toList.take 11 = [] := congrArg String.data he
  rw [List.take_eq_nil_iff] at hl
  rcases hl with hl | hl
  · cases hl
  · exact hs (by cases s with | mk l => cases hl; rfl)

/-- `write_placemark` succeeds and preserves the open-element stack
whenever its implicit preconditions hold: at most one of style URL and
icon marker is truthy, a name can be derived (a truthy name, a truthy
fly state, or a present tick value), the description is present, and
the icon path has a marker to write. -/
theorem stackok_write_placemark {st : EmitState} {σ : List String}
    (data : Row) (style : Option String) (altitude : String)
    (icon_marker heading name desc shape : Option String)
    (hexcl : (truthy style && truthy icon_marker) = false)
    (hname : truthy name = true ∨ truthy (data F_FLY_STATE) = true
      ∨ (data F_TICK).isSome = true)
    (hdesc : desc.isSome = true)
    (hstyicon : truthy style = true ∨ icon_marker.isSome = true)
    (h : StackOk st σ) :
    ∃ st2, write_placemark st data style altitude icon_marker heading name
        desc shape = Except.ok st2 ∧ StackOk st2 σ := by
  obtain ⟨d, rfl⟩ : ∃ d, desc = some d := by
    cases desc with
    | none => cases hdesc
    | some d => exact ⟨d, rfl⟩
  unfold write_placemark
  rw [hexcl]
  simp only [Bool.false_eq_true, if_false]
  obtain ⟨nm, hnm⟩ : ∃ nm,
      (if truthy (if truthy name = true then name
          else if truthy (data F_FLY_STATE) = true
          then some (String.mk (((data F_FLY_STATE).getD "").toList.take 11))
          else none) = true then
        Except.ok ((if truthy name = true then name
          else if truthy (data F_FLY_STATE) = true
          then some (String.mk (((data F_FLY_STATE).getD "").toList.take 11))
          else none).getD "")
      else
        match data F_TICK with
        | none => Except.error (PyErr.typeError "can only concatenate str")
        | some t => Except.ok ("Tick: " ++ t)) = Except.ok nm := by
    by_cases h1 : truthy (if truthy name = true then name
        else if truthy (data F_FLY_STATE) = true
        then some (String.mk (((data F_FLY_STATE).getD "").toList.take 11))
        else none) = true
    · exact ⟨_, by rw [if_pos h1]⟩
    · rcases hname with hn | hn | hn
      · rw [if_pos hn] at h1
        exact absurd hn h1
      · rw [if_neg ?_, if_pos hn] at h1
        · obtain ⟨s, hsv⟩ : ∃ s, data F_FLY_STATE = some s := by
            cases hd : data F_FLY_STATE with
            | none => rw [hd] at hn; cases hn
            | some s => exact ⟨s, rfl⟩
          rw [hsv] at h1 hn
          exact absurd (truthy_slice s hn) (by simpa using h1)
        · intro hcontra
          rw [if_pos hcontra] at h1
          exact h1 hcontra
      · obtain ⟨t, ht⟩ : ∃ t, data F_TICK = some t := by
          cases hd : data F_TICK with
          | none => rw [hd] at hn; cases hn
          | some t => exact ⟨t, rfl⟩
        rw [if_neg h1, ht]
        exact ⟨_, rfl⟩
  rw [hnm]
  dsimp only
  refine ⟨_, rfl, ?_⟩
  refine stackok_close "Placemark" rfl ?_
  have h1 := stackok_tag_open "Placemark" h
  have h2 := stackok_tag_value (t := "name") rfl nm h1
  have h3 := stackok_tag_value (t := "description") rfl d h2
  have h4 : StackOk (if truthy style = true
      then write_tag (write_tag (write_tag (write_tag st "Placemark" none)
          "name" (some nm)) "description" (some d)) "styleUrl" style
      else write_style (write_tag (write_tag (write_tag st "Placemark" none)
          "name" (some nm)) "description" (some d)) none none none none
          (some (icon_marker, none, heading)))
      (firstWord "Placemark" :: σ) := by
    by_cases hs : truthy style = true
    · rw [if_pos hs]
      obtain ⟨sv, rfl⟩ : ∃ sv, style = some sv := by
        cases style with
        | none => cases hs
        | some sv => exact ⟨sv, rfl⟩
      exact stackok_tag_value (t := "styleUrl") rfl sv h3
    · rw [if_neg hs]
      refine stackok_write_style _ _ _ _ _ rfl ?_ h3
      intro p hp
      cases hp
      rcases hstyicon with hcase | hcase
      · exact absurd hcase hs
      · exact hcase
  by_cases hsh : (!truthy shape) = true
  · rw [if_pos hsh]
    exact stackok_close "Point" rfl
      (stackok_tag_value rfl "1"
        (stackok_tag_value rfl altitude
          (stackok_tag_value rfl _ (stackok_tag_open "Point" h4))))
  · rw [if_neg hsh]
    by_cases hline : (shape == some "line") = true
    · rw [if_pos hline]
      exact stackok_close "LineString" rfl
        (stackok_close "coordinates" rfl
          (stackok_coords _
            (stackok_coords _
              (stackok_tag_open "coordinates"
                (stackok_tag_value rfl altitude
                  (stackok_tag_value rfl "0"
                    (stackok_tag_value rfl "0"
                      (stackok_tag_open "LineString" h4))))))))
    · rw [if_neg hline]
      by_cases hcone : (shape == some "cone") = true
      · rw [if_pos hcone]
        exact stackok_close "Polygon" rfl
          (stackok_close "outerBoundaryIs" rfl
            (stackok_close "LinearRing" rfl
              (stackok_close "coordinates" rfl
                (stackok_coords _
                  (stackok_tag_open "coordinates"
                    (stackok_tag_open "LinearRing"
                      (stackok_tag_open "outerBoundaryIs"
                        (stackok_tag_value rfl "1"
                          (stackok_tag_open "Polygon" h4)))))))))
      · rw [if_neg hcone]
        exact h4

theorem colon_concat_ne_empty (a b : String) : (a ++ ":" ++ b) ≠ "" := by
  intro he
  have h2 := congrArg String.data he
  rw [String.data_append, String.data_append] at h2
  simp at h2

theorem stackok_state_marks_row {σ : List String} (altitude : String)
    (acc : EmitState × Option String) (data : Row) (h : StackOk acc.1 σ) :
    ∃ acc2, state_marks_row altitude acc data = Except.ok acc2
      ∧ StackOk acc2.1 σ := by
  unfold state_marks_row
  dsimp only
  split
  · obtain ⟨st2, hok, hst2⟩ := stackok_write_placemark data none altitude
      (some icon_marker_0_Red) (data F_YAW)
      (some (pyStr acc.2 ++ ":" ++ pyStr (match data F_FLY_STATE with
        | none => none
        | some s => some (canonFlyState s))))
      (some (desc_fmt (data F_TICK) (data F_GPS_TS) (data F_GPS_LONG)
        (data F_GPS_LAT) (data F_TRAVEL_DIST) (data F_FLY_STATE))) none
      rfl (Or.inl ((truthy_some_iff _).mpr (colon_concat_ne_empty _ _)))
      rfl (Or.inr rfl) h
    rw [hok]
    exact ⟨(st2, _), rfl, hst2⟩
  · exact ⟨(acc.1, _), rfl, h⟩

theorem stackok_state_marks_fold {σ : List String} (altitude : String)
    (rows : List Row) :
    ∀ acc : EmitState × Option String, StackOk acc.1 σ →
      ∃ acc2, rows.foldlM (state_marks_row altitude) acc = Except.ok acc2
        ∧ StackOk acc2.1 σ := by
  induction rows with
  | nil =>
    intro acc h
    exact ⟨acc, rfl, h⟩
  | cons rrow rest ih =>
    intro acc h
    obtain ⟨acc1, hok1, h1⟩ := stackok_state_marks_row altitude acc rrow h
    rw [List.foldlM_cons, hok1]
    exact ih acc1 h1

theorem stackok_state_marks_tracks {σ : List String} (altitude : String)
    (csv_data : List (Option String × List Row)) :
    ∀ acc : EmitState × Option String, StackOk acc.1 σ →
      ∃ acc2, csv_data.foldlM
          (fun acc p => p.2.foldlM (state_marks_row altitude) acc) acc
          = Except.ok acc2
        ∧ StackOk acc2.1 σ := by
  induction csv_data with
  | nil =>
    intro acc h
    exact ⟨acc, rfl, h⟩
  | cons p rest ih =>
    intro acc h
    obtain ⟨acc1, hok1, h1⟩ := stackok_state_marks_fold altitude p.2 acc h
    rw [List.foldlM_cons, hok1]
    exact ih acc1 h1

theorem stackok_write_state_placemarks {st : EmitState} {σ : List String}
    (csv_data : List (Option String × List Row)) (altitude : String)
    (h : StackOk st σ) :
    ∃ st2, write_state_placemarks st csv_data altitude = Except.ok st2
      ∧ StackOk st2 σ := by
  unfold write_state_placemarks
  dsimp only
  obtain ⟨acc2, hok, h2⟩ := stackok_state_marks_tracks altitude csv_data
    (write_tag (write_tag st "Folder" none) "name" (some "Place Marker"), none)
    (stackok_tag_value rfl "Place Marker" (stackok_tag_open "Folder" h))
  rw [hok]
  exact ⟨_, rfl, stackok_close "Folder" rfl h2⟩

theorem stackok_write_track_header {st : EmitState} {σ : List String}
    (rows : List Row) (track : Option String) (altitude : String)
    (name : Option String) (hrows : rows ≠ []) (h : StackOk st σ) :
    ∃ st2, write_track_header st rows track altitude name = Except.ok st2
      ∧ StackOk st2
          ("coordinates" :: "LineString" :: "Placemark" :: "Folder" :: σ) := by
  unfold write_track_header
  obtain ⟨first, hfirst⟩ : ∃ x, rows.head? = some x := by
    cases hr : rows.head? with
    | none => exact absurd (List.head?_eq_none_iff.mp hr) hrows
    | some x => exact ⟨x, rfl⟩
  obtain ⟨lastR, hlast⟩ : ∃ x, rows.getLast? = some x := by
    cases hr : rows.getLast? with
    | none => exact absurd (List.getLast?_eq_none_iff.mp hr) hrows
    | some x => exact ⟨x, rfl⟩
  rw [hfirst, hlast]
  dsimp only
  obtain ⟨stA, hokA, hA⟩ := stackok_write_placemark first
    (some " #iconPathStart") altitude none none (some "Start")
    (some (desc_fmt (first F_TICK) (first F_GPS_TS) (first F_GPS_LONG)
      (first F_GPS_LAT) (first F_TRAVEL_DIST) (first F_FLY_STATE))) none
    rfl (Or.inl rfl) rfl (Or.inl rfl)
    (stackok_tag_value (t := "name") rfl
      (if truthy name = true then name.getD "" else "Start/End Marker")
      (stackok_tag_open "Folder" h))
  rw [hokA]
  dsimp only
  obtain ⟨stB, hokB, hB⟩ := stackok_write_placemark lastR
    (some " #iconPathEnd") altitude none none (some "End")
    (some (desc_fmt (lastR F_TICK) (lastR F_GPS_TS) (lastR F_GPS_LONG)
      (lastR F_GPS_LAT) (lastR F_TRAVEL_DIST) (lastR F_FLY_STATE))) none
    rfl (Or.inl rfl) rfl (Or.inl rfl) hA
  rw [hokB]
  dsimp only
  refine ⟨_, rfl, ?_⟩
  exact stackok_tag_open "coordinates"
    (stackok_tag_value rfl altitude
      (stackok_tag_value rfl "0"
        (stackok_tag_value rfl "0"
          (stackok_tag_open "LineString"
            (stackok_tag_value rfl "#lineStyle1"
              (stackok_tag_value rfl _
                (stackok_tag_value rfl _
                  (stackok_tag_open "Placemark"
                    (stackok_tag_value rfl _
                      (stackok_tag_open "Folder"
                        (stackok_close "Folder" rfl hB)))))))))))

theorem stackok_write_track_footer {st : EmitState} {σ : List String}
    (h : StackOk st
      ("coordinates" :: "LineString" :: "Placemark" :: "Folder" :: σ)) :
    StackOk (write_track_footer st) σ := by
  unfold write_track_footer
  exact stackok_close "Folder" rfl (stackok_close "Placemark" rfl
    (stackok_close "LineString" rfl (stackok_close "coordinates" rfl h)))

theorem truthy_isSome {o : Option String} (h : truthy o = true) :
    o.isSome = true := by
  cases o with
  | none => cases h
  | some s => rfl

theorem mem_dictSet {k : Option String} {v : List Row}
    {p : Option String × List Row} :
    ∀ {d : List (Option String × List Row)}, p ∈ dictSet d k v →
      p ∈ d ∨ p.2 = v := by
  intro d
  induction d with
  | nil =>
    intro h
    simp [dictSet] at h
    exact Or.inr (by rw [h])
  | cons e rest ih =>
    obtain ⟨k0, v0⟩ := e
    intro h
    by_cases hk : k0 = k
    · unfold dictSet at h
      rw [if_pos hk] at h
      rcases List.mem_cons.mp h with h1 | h1
      · exact Or.inr (by rw [h1])
      · exact Or.inl (List.mem_cons_of_mem _ h1)
    · unfold dictSet at h
      rw [if_neg hk] at h
      rcases List.mem_cons.mp h with h1 | h1
      · subst h1
        exact Or.inl (List.mem_cons_self _ _)
      · rcases ih h1 with h2 | h2
        · exact Or.inl (List.mem_cons_of_mem _ h2)
        · exact Or.inr h2

theorem mem_dictAppend {k : Option String} {r : Row}
    {p : Option String × List Row} :
    ∀ {d : List (Option String × List Row)}, p ∈ dictAppend d k r →
      p ∈ d ∨ p.2 = [r] ∨ ∃ v0, (p.1, v0) ∈ d ∧ p.2 = v0 ++ [r] := by
  intro d
  induction d with
  | nil =>
    intro h
    simp [dictAppend] at h
    exact Or.inr (Or.inl (by rw [h]))
  | cons e rest ih =>
    obtain ⟨k0, v0⟩ := e
    intro h
    by_cases hk : k0 = k
    · unfold dictAppend at h
      rw [if_pos hk] at h
      rcases List.mem_cons.mp h with h1 | h1
      · subst h1
        exact Or.inr (Or.inr ⟨v0, List.mem_cons_self _ _, rfl⟩)
      · exact Or.inl (List.mem_cons_of_mem _ h1)
    · unfold dictAppend at h
      rw [if_neg hk] at h
      rcases List.mem_cons.mp h with h1 | h1
      · subst h1
        exact Or.inl (List.mem_cons_self _ _)
      · rcases ih h1 with h2 | h2 | ⟨v1, hmem, he⟩
        · exact Or.inl (List.mem_cons_of_mem _ h2)
        · exact Or.inr (Or.inl h2)
        · exact Or.inr (Or.inr ⟨v1, List.mem_cons_of_mem _ hmem, he⟩)

/-- Every track table assembled by ingestion is well-formed: every
entry's row list is nonempty, and every row it holds carries a truthy
tick value (these are the preconditions of the emission pass). -/
theorem ingest_csv_data_wellformed {thresh : Int} {fmap : Option FieldMap}
    {lines : List String} {stF : IngestState}
    (h : ingest_lines thresh fmap lines = Except.ok stF) :
    ∀ p ∈ stF.csv_data, p.2 ≠ [] ∧ ∀ r ∈ p.2, truthy (r F_TICK) = true := by
  refine ingest_inv
    (fun st => ∀ p ∈ st.csv_data, p.2 ≠ [] ∧ ∀ r ∈ p.2,
      truthy (r F_TICK) = true)
    ?_ lines (initIngest fmap) stF h ?_
  · intro st line st2 hline hP
    rcases process_line_cases hline with
      ⟨hc, _, _, _⟩ | ⟨ts, hc, _, _, _, _⟩ | ⟨data, _, hc, _, _, _, htt⟩
    · rw [hc]
      exact hP
    · rw [hc]
      exact hP
    · have hcd : st2.csv_data
          = (track_step (st.cur_track, st.csv_data) data).2 := hc
      by_cases hcond : (st.cur_track, st.csv_data).1 = TrackKey.sentinel
          ∨ (st.cur_track, st.csv_data).1 ≠ TrackKey.val (keyOf data)
      · rw [track_step_reset hcond] at hcd
        dsimp only at hcd
        rw [hcd]
        intro p hp
        rcases mem_dictSet hp with hp1 | hp1
        · exact hP p hp1
        · refine ⟨?_, ?_⟩
          · rw [hp1]
            exact List.cons_ne_nil _ _
          · intro r hr
            rw [hp1] at hr
            rw [List.mem_singleton.mp hr]
            exact htt
      · rw [track_step_extend hcond] at hcd
        dsimp only at hcd
        rw [hcd]
        intro p hp
        rcases mem_dictAppend hp with hp1 | hp1 | ⟨v0, hmem, he⟩
        · exact hP p hp1
        · refine ⟨?_, ?_⟩
          · rw [hp1]
            exact List.cons_ne_nil _ _
          · intro r hr
            rw [hp1] at hr
            rw [List.mem_singleton.mp hr]
            exact htt
        · refine ⟨?_, ?_⟩
          · rw [he]
            simp
          · intro r hr
            rw [he] at hr
            rcases List.mem_append.mp hr with hr1 | hr1
            · exact (hP (p.1, v0) hmem).2 r hr1
            · rw [List.mem_singleton.mp hr1]
              exact htt
  · intro p hp
    simp [initIngest] at hp

theorem stackok_emit_row {st : EmitState} {σ : List String}
    (mode altitude : String) (data : Row)
    (htick : truthy (data F_TICK) = true) (h : StackOk st σ) :
    ∃ st2, emit_row mode altitude st data = Except.ok st2
      ∧ StackOk st2 σ := by
  unfold emit_row
  dsimp only
  by_cases hp : (mode == MODE_PLACE) = true
  · rw [if_pos hp]
    exact stackok_write_placemark data (some " #iconPathMark") altitude none
      none none (some _) none rfl
      (Or.inr (Or.inr (truthy_isSome htick))) rfl (Or.inl rfl) h
  · rw [if_neg hp]
    by_cases hl : (mode == MODE_LINE) = true
    · rw [if_pos hl]
      exact stackok_write_placemark data (some " #lineStyle1") altitude none
        none none (some _) (some "line") rfl
        (Or.inr (Or.inr (truthy_isSome htick))) rfl (Or.inl rfl) h
    · rw [if_neg hl]
      by_cases hc : (mode == MODE_CONE) = true
      · rw [if_pos hc]
        exact stackok_write_placemark data (some " #polyStyle1") altitude none
          none none (some _) (some "cone") rfl
          (Or.inr (Or.inr (truthy_isSome htick))) rfl (Or.inl rfl) h
      · rw [if_neg hc]
        exact ⟨_, rfl, stackok_coords _ h⟩

theorem stackok_emit_rows {σ : List String} (mode altitude : String) :
    ∀ (rows : List Row) (st : EmitState),
      (∀ r ∈ rows, truthy (r F_TICK) = true) → StackOk st σ →
      ∃ st2, rows.foldlM (emit_row mode altitude) st = Except.ok st2
        ∧ StackOk st2 σ := by
  intro rows
  induction rows with
  | nil =>
    intro st _ h
    exact ⟨st, rfl, h⟩
  | cons r rest ih =>
    intro st hrows h
    obtain ⟨st1, hok1, h1⟩ := stackok_emit_row mode altitude r
      (hrows r (List.mem_cons_self _ _)) h
    rw [List.foldlM_cons, hok1]
    exact ih st1 (fun q hq => hrows q (List.mem_cons_of_mem _ hq)) h1

theorem stackok_emit_track_entry {σ : List String} (track : Bool)
    (mode altitude : String) (acc : EmitState × Bool × TrackKey)
    (p : Option String × List Row) (hne : p.2 ≠ [])
    (hrows : ∀ r ∈ p.2, truthy (r F_TICK) = true)
    (hinv : TrackEmitInv acc σ) (htr : track = false → acc.2.1 = false) :
    ∃ acc2, emit_track_entry track mode altitude acc p = Except.ok acc2
      ∧ TrackEmitInv acc2 σ ∧ (track = false → acc2.2.1 = false) := by
  unfold emit_track_entry
  dsimp only
  by_cases hcond : (track && (TrackKey.val p.1 != acc.2.2)) = true
  · rw [if_pos hcond]
    have htrk : track = true := by
      cases track
      · simp at hcond
      · rfl
    rcases hinv with ⟨hw, hst⟩ | ⟨hw, hst⟩
    · have hwt : (if acc.2.1 = true then write_track_footer acc.1 else acc.1)
          = write_track_footer acc.1 := by
        rw [hw]
        exact if_pos rfl
      rw [hwt]
      obtain ⟨stH, hokH, hH⟩ := stackok_write_track_header p.2 p.1 altitude
        none hne (stackok_write_track_footer hst)
      rw [hokH]
      dsimp only
      obtain ⟨stR, hokR, hR⟩ := stackok_emit_rows mode altitude p.2 stH
        hrows hH
      rw [hokR]
      refine ⟨_, rfl, Or.inl ⟨rfl, hR⟩, ?_⟩
      intro hf
      rw [hf] at htrk
      cases htrk
    · have hwt : (if acc.2.1 = true then write_track_footer acc.1 else acc.1)
          = acc.1 := by
        rw [hw]
        exact if_neg Bool.false_ne_true
      rw [hwt]
      obtain ⟨stH, hokH, hH⟩ := stackok_write_track_header p.2 p.1 altitude
        none hne hst
      rw [hokH]
      dsimp only
      obtain ⟨stR, hokR, hR⟩ := stackok_emit_rows mode altitude p.2 stH
        hrows hH
      rw [hokR]
      refine ⟨_, rfl, Or.inl ⟨rfl, hR⟩, ?_⟩
      intro hf
      rw [hf] at htrk
      cases htrk
  · rw [if_neg hcond]
    dsimp only
    rcases hinv with ⟨hw, hst⟩ | ⟨hw, hst⟩
    · obtain ⟨stR, hokR, hR⟩ := stackok_emit_rows mode altitude p.2 acc.1
        hrows hst
      rw [hokR]
      exact ⟨_, rfl, Or.inl ⟨hw, hR⟩, htr⟩
    · obtain ⟨stR, hokR, hR⟩ := stackok_emit_rows mode altitude p.2 acc.1
        hrows hst
      rw [hokR]
      exact ⟨_, rfl, Or.inr ⟨hw, hR⟩, htr⟩

theorem stackok_emit_tracks_fold {σ : List String} (track : Bool)
    (mode altitude : String) :
    ∀ (entries : List (Option String × List Row))
      (acc : EmitState × Bool × TrackKey),
      (∀ p ∈ entries, p.2 ≠ []) →
      (∀ p ∈ entries, ∀ r ∈ p.2, truthy (r F_TICK) = true) →
      TrackEmitInv acc σ → (track = false → acc.2.1 = false) →
      ∃ acc2, entries.foldlM (emit_track_entry track mode altitude) acc
          = Except.ok acc2
        ∧ TrackEmitInv acc2 σ ∧ (track = false → acc2.2.1 = false) := by
  intro entries
  induction entries with
  | nil =>
    intro acc _ _ hinv htr
    exact ⟨acc, rfl, hinv, htr⟩
  | cons p rest ih =>
    intro acc hne hrows hinv htr
    obtain ⟨acc1, hok1, hinv1, htr1⟩ := stackok_emit_track_entry track mode
      altitude acc p (hne p (List.mem_cons_self _ _))
      (hrows p (List.mem_cons_self _ _)) hinv htr
    rw [List.foldlM_cons, hok1]
    exact ih acc1 (fun q hq => hne q (List.mem_cons_of_mem _ hq))
      (fun q hq => hrows q (List.mem_cons_of_mem _ hq)) hinv1 htr1

theorem stackok_emit_tracks {st : EmitState} {σ : List String} (track : Bool)
    (mode altitude : String) (csv_data : List (Option String × List Row))
    (hne : ∀ p ∈ csv_data, p.2 ≠ [])
    (hrows : ∀ p ∈ csv_data, ∀ r ∈ p.2, truthy (r F_TICK) = true)
    (h : StackOk st σ) :
    ∃ st2, emit_tracks track mode altitude st csv_data = Except.ok st2
      ∧ StackOk st2 σ := by
  unfold emit_tracks
  obtain ⟨acc2, hok, hinv2, htr2⟩ := stackok_emit_tracks_fold track mode
    altitude csv_data (st, false, TrackKey.sentinel) hne hrows
    (Or.inr ⟨rfl, h⟩) (fun _ => rfl)
  rw [hok]
  dsimp only
  by_cases hb : (track && acc2.2.1) = true
  · rw [if_pos hb]
    rcases hinv2 with ⟨hw, hst⟩ | ⟨hw, hst⟩
    · exact ⟨_, rfl, stackok_write_track_footer hst⟩
    · rw [hw] at hb
      simp at hb
  · rw [if_neg hb]
    rcases hinv2 with ⟨hw, hst⟩ | ⟨hw, hst⟩
    · cases htrk : track with
      | true =>
        rw [htrk, hw] at hb
        simp at hb
      | false =>
        rw [htr2 htrk] at hw
        cases hw
    · exact ⟨_, rfl, hst⟩

/-- **C3.**  Round-trip emission invariant: over one full document
emission (KML header, style headers, optional state-change markers,
per-track data, KML footer) every element opened is closed exactly once
in strict LIFO order — the open/close event history replays to an empty
open-element stack — and the indentation level maintained by the
`_indent` object returns to zero after the footer, for every mode
string, every indentation-enable setting, and every assembled data
table whose track entries are nonempty row lists of rows carrying a
truthy tick value (`ingest_csv_data_wellformed` shows every table
assembled by ingestion is of this form). -/
theorem document_balanced_lifo (mode altitude : String)
    (state_marks indent_kml : Bool) (track_width : Int)
    (track_color : String)
    (csv_data : List (Option String × List Row))
    (hne : ∀ p ∈ csv_data, p.2 ≠ [])
    (hrows : ∀ p ∈ csv_data, ∀ r ∈ p.2, truthy (r F_TICK) = true) :
    ∃ stF, emit_document mode altitude state_marks indent_kml track_width
        track_color csv_data = Except.ok stF
      ∧ runStack stF.events [] = some [] ∧ stF.ind.level = 0 := by
  unfold emit_document
  dsimp only
  have h0 : StackOk
      { out := [], events := [],
        ind := { enable := indent_kml, level := 0 } } [] := by
    refine ⟨rfl, ?_⟩
    cases indent_kml <;> rfl
  have h1 := stackok_write_style_headers track_width track_color
    (stackok_kml_header h0)
  by_cases hsm : state_marks = true
  · rw [if_pos hsm]
    obtain ⟨st2, hok2, h2⟩ := stackok_write_state_placemarks csv_data
      altitude h1
    rw [hok2]
    dsimp only
    obtain ⟨st3, hok3, h3⟩ := stackok_emit_tracks (mode == MODE_TRACK) mode
      altitude csv_data hne hrows h2
    rw [hok3]
    refine ⟨_, rfl, (stackok_kml_footer h3).1, ?_⟩
    have hl := (stackok_kml_footer h3).2
    simpa using hl
  · rw [if_neg hsm]
    dsimp only
    obtain ⟨st3, hok3, h3⟩ := stackok_emit_tracks (mode == MODE_TRACK) mode
      altitude csv_data hne hrows h1
    rw [hok3]
    refine ⟨_, rfl, (stackok_kml_footer h3).1, ?_⟩
    have hl := (stackok_kml_footer h3).2
    simpa using hl

theorem document_balanced_lifo_witness :
    ∃ stF, emit_document "track" "relativeToGround" true true 4 "ff00ffff"
        [(some "1", [rowW])] = Except.ok stF
      ∧ runStack stF.events [] = some [] ∧ stF.ind.level = 0 :=
  document_balanced_lifo "track" "relativeToGround" true true 4 "ff00ffff"
    [(some "1", [rowW])]
    (by
      intro p hp
      rw [List.mem_singleton] at hp
      rw [hp]
      simp)
    (by
      intro p hp r hr
      rw [List.mem_singleton] at hp
      rw [hp] at hr
      dsimp only at hr
      rw [List.mem_singleton.mp hr]
      rfl)

end Csv2Kml
